/-
Verification of the free-tier-router core: a shallow embedding of the
rate-limit tracker, in-memory state store, model-alias resolution,
candidate selection, routing strategies and the retry/failover executor,
with theorems settling the specification claims.

Conventions of the embedding:
* JS numbers that only ever hold non-negative integers (timestamps,
  counters, limits, TTLs) are `Nat`; scores computed by division are `ℚ`.
* `Date.now()` is modelled by an explicit `now : Nat` argument; one
  source-level call reads the clock once.
* Async store operations on the in-memory store are modelled as pure
  state-passing functions `σ → value × σ` (reads prune expired entries,
  exactly as `memory.ts` does).  `Promise.all` over distinct keys is
  modelled as a sequential fold: on the in-memory store the operations
  touch disjoint keys or only prune, so the result agrees.
* JS `Map` is an association list; `Map.set` updates in place (keeping
  the key's position) or appends.
-/
import Mathlib

namespace Router

/-! ### Time windows (`src/rate-limit/windows.ts`) -/

inductive TimeWindow where
  | minute
  | hour
  | day
deriving DecidableEq, Repr

def WINDOW_DURATION_MS : TimeWindow → Nat
  | .minute => 60 * 1000
  | .hour => 60 * 60 * 1000
  | .day => 24 * 60 * 60 * 1000

def ALL_WINDOWS : List TimeWindow := [.minute, .hour, .day]

/-- `Math.floor(now / duration) * duration` (floor alignment). -/
def getWindowStart (w : TimeWindow) (now : Nat) : Nat :=
  now / WINDOW_DURATION_MS w * WINDOW_DURATION_MS w

def getWindowEnd (w : TimeWindow) (now : Nat) : Nat :=
  getWindowStart w now + WINDOW_DURATION_MS w

def windowName : TimeWindow → String
  | .minute => "minute"
  | .hour => "hour"
  | .day => "day"

/-- `` `${provider}:${model}:${window}` `` -/
def makeUsageKey (provider model : String) (w : TimeWindow) : String :=
  provider ++ ":" ++ model ++ ":" ++ windowName w

/-! ### State types (`src/types/state.ts`) -/

structure UsageRecord where
  requests : Nat
  tokens : Nat
  windowStart : Nat
deriving DecidableEq, Repr

structure CooldownRecord where
  provider : String
  model : String
  expiresAt : Nat
deriving DecidableEq, Repr

structure LatencyRecord where
  provider : String
  model : String
  averageMs : ℚ
  sampleCount : Nat
  updatedAt : Nat
deriving DecidableEq, Repr

/-! ### Store utilities (`src/state/utils.ts`) -/

/-- `` `${provider}:${model}` `` -/
def makeKey (provider model : String) : String := provider ++ ":" ++ model

/-- `expiresAt !== null && Date.now() > expiresAt` -/
def isExpired (expiresAt : Option Nat) (now : Nat) : Bool :=
  match expiresAt with
  | none => false
  | some e => decide (now > e)

/-- `calculateUpdatedUsage`: reset on a different window start, else add. -/
def calculateUpdatedUsage (existing : Option UsageRecord)
    (requests tokens windowStart : Nat) : UsageRecord :=
  match existing with
  | none => ⟨requests, tokens, windowStart⟩
  | some ex =>
    if ex.windowStart ≠ windowStart then ⟨requests, tokens, windowStart⟩
    else ⟨ex.requests + requests, ex.tokens + tokens, ex.windowStart⟩

/-- EMA update, decay 0.8 = 4/5, sample cap 100 (`calculateUpdatedLatency`). -/
def calculateUpdatedLatency (existing : Option LatencyRecord)
    (provider model : String) (latencyMs : ℚ) (now : Nat) : LatencyRecord :=
  match existing with
  | none => ⟨provider, model, latencyMs, 1, now⟩
  | some ex =>
    ⟨provider, model, ex.averageMs * (4 / 5) + latencyMs * (1 - 4 / 5),
      min (ex.sampleCount + 1) 100, now⟩

/-! ### In-memory store (`src/state/memory.ts`) -/

structure UsageEntry where
  record : UsageRecord
  expiresAt : Option Nat
deriving DecidableEq, Repr

/-- JS `Map.set`: replace in place, or append a new binding. -/
def listSet {α : Type} (l : List (String × α)) (k : String) (v : α) :
    List (String × α) :=
  match l with
  | [] => [(k, v)]
  | (k', v') :: t => if k' = k then (k, v) :: t else (k', v') :: listSet t k v

/-- JS `Map.delete`. -/
def listRemove {α : Type} (l : List (String × α)) (k : String) :
    List (String × α) :=
  match l with
  | [] => []
  | (k', v') :: t => if k' = k then t else (k', v') :: listRemove t k

structure MemoryStore where
  usage : List (String × UsageEntry)
  cooldowns : List (String × CooldownRecord)
  latency : List (String × LatencyRecord)
deriving DecidableEq, Repr

def emptyStore : MemoryStore := ⟨[], [], []⟩

def MemoryStore.getUsage (s : MemoryStore) (key : String) (now : Nat) :
    Option UsageRecord × MemoryStore :=
  match s.usage.lookup key with
  | none => (none, s)
  | some entry =>
    if isExpired entry.expiresAt now then
      (none, { s with usage := listRemove s.usage key })
    else (some entry.record, s)

/-- `setUsage`: JS `ttlMs ? Date.now() + ttlMs : null` (0 is falsy). -/
def MemoryStore.setUsage (s : MemoryStore) (key : String) (record : UsageRecord)
    (ttlMs : Option Nat) (now : Nat) : MemoryStore :=
  let expiresAt : Option Nat :=
    match ttlMs with
    | some t => if t = 0 then none else some (now + t)
    | none => none
  { s with usage := listSet s.usage key ⟨record, expiresAt⟩ }

def MemoryStore.incrementUsage (s : MemoryStore) (key : String)
    (requests tokens windowStart ttlMs now : Nat) : UsageRecord × MemoryStore :=
  let r := s.getUsage key now
  let updated := calculateUpdatedUsage r.1 requests tokens windowStart
  (updated, r.2.setUsage key updated (some ttlMs) now)

def MemoryStore.getCooldown (s : MemoryStore) (provider model : String)
    (now : Nat) : Option CooldownRecord × MemoryStore :=
  let key := makeKey provider model
  match s.cooldowns.lookup key with
  | none => (none, s)
  | some record =>
    if now > record.expiresAt then
      (none, { s with cooldowns := listRemove s.cooldowns key })
    else (some record, s)

def MemoryStore.setCooldown (s : MemoryStore) (record : CooldownRecord) :
    MemoryStore :=
  { s with cooldowns := listSet s.cooldowns (makeKey record.provider record.model) record }

def MemoryStore.removeCooldown (s : MemoryStore) (provider model : String) :
    MemoryStore :=
  { s with cooldowns := listRemove s.cooldowns (makeKey provider model) }

def MemoryStore.getLatency (s : MemoryStore) (provider model : String) :
    Option LatencyRecord :=
  s.latency.lookup (makeKey provider model)

def MemoryStore.updateLatency (s : MemoryStore) (provider model : String)
    (latencyMs : ℚ) (now : Nat) : MemoryStore :=
  let key := makeKey provider model
  let updated := calculateUpdatedLatency (s.latency.lookup key) provider model latencyMs now
  { s with latency := listSet s.latency key updated }

/-! ### Rate limits and quota (`src/types/models.ts`) -/

structure RateLimits where
  requestsPerMinute : Option Nat := none
  requestsPerHour : Option Nat := none
  requestsPerDay : Option Nat := none
  tokensPerMinute : Option Nat := none
  tokensPerHour : Option Nat := none
  tokensPerDay : Option Nat := none
deriving DecidableEq, Repr

/-- `getLimitForWindow(limits, window, "requests")` (field selection). -/
def RateLimits.requestsFor (l : RateLimits) : TimeWindow → Option Nat
  | .minute => l.requestsPerMinute
  | .hour => l.requestsPerHour
  | .day => l.requestsPerDay

/-- `getLimitForWindow(limits, window, "tokens")` (field selection). -/
def RateLimits.tokensFor (l : RateLimits) : TimeWindow → Option Nat
  | .minute => l.tokensPerMinute
  | .hour => l.tokensPerHour
  | .day => l.tokensPerDay

/-- One of the `{minute, hour, day}` maps inside `QuotaStatus`. -/
structure WindowValues where
  minute : Option Nat := none
  hour : Option Nat := none
  day : Option Nat := none
deriving DecidableEq, Repr

def WindowValues.get (v : WindowValues) : TimeWindow → Option Nat
  | .minute => v.minute
  | .hour => v.hour
  | .day => v.day

structure QuotaStatus where
  requestsRemaining : WindowValues
  tokensRemaining : WindowValues
  resetTimes : WindowValues
  cooldownUntil : Option Nat
deriving DecidableEq, Repr

/-! ### Rate-limit tracker (`src/rate-limit/tracker.ts`)

The tracker's `defaultCooldownMs` option (default 60 000) is passed
explicitly to `markRateLimited`. -/

def DEFAULT_COOLDOWN_MS : Nat := 60000

/-- `recordUsage`: one `incrementUsage` per window, each with the aligned
window start and the window duration as TTL. -/
def recordUsage (s : MemoryStore) (provider model : String)
    (tokens now : Nat) : MemoryStore :=
  ALL_WINDOWS.foldl
    (fun st w =>
      (st.incrementUsage (makeUsageKey provider model w) 1 tokens
        (getWindowStart w now) (WINDOW_DURATION_MS w) now).2)
    s

/-- The per-window read inside `getQuotaStatus`: usage from a different
window start (or absent) counts as zero. -/
def usageForWindow (s : MemoryStore) (provider model : String)
    (w : TimeWindow) (now : Nat) : (Nat × Nat) × MemoryStore :=
  let r := s.getUsage (makeUsageKey provider model w) now
  match r.1 with
  | none => ((0, 0), r.2)
  | some u =>
    if u.windowStart ≠ getWindowStart w now then ((0, 0), r.2)
    else ((u.requests, u.tokens), r.2)

/-- The body of the per-window loop in `getQuotaStatus`.  `Nat`
subtraction is truncated, i.e. exactly `Math.max(0, limit - used)`. -/
def remainingForWindow (limits : RateLimits) (w : TimeWindow)
    (used : Nat × Nat) (now : Nat) : Option Nat × Option Nat × Option Nat :=
  let requestLimit := limits.requestsFor w
  let tokenLimit := limits.tokensFor w
  let requestsRemaining := requestLimit.map (fun L => L - used.1)
  let tokensRemaining := tokenLimit.map (fun L => L - used.2)
  let resetTime : Option Nat :=
    if requestLimit.isSome || tokenLimit.isSome then some (getWindowEnd w now)
    else none
  (requestsRemaining, tokensRemaining, resetTime)

def getQuotaStatus (s : MemoryStore) (provider model : String)
    (limits : RateLimits) (now : Nat) : QuotaStatus × MemoryStore :=
  let um := usageForWindow s provider model .minute now
  let uh := usageForWindow um.2 provider model .hour now
  let ud := usageForWindow uh.2 provider model .day now
  let rm := remainingForWindow limits .minute um.1 now
  let rh := remainingForWindow limits .hour uh.1 now
  let rd := remainingForWindow limits .day ud.1 now
  let c := ud.2.getCooldown provider model now
  (⟨⟨rm.1, rh.1, rd.1⟩, ⟨rm.2.1, rh.2.1, rd.2.1⟩, ⟨rm.2.2, rh.2.2, rd.2.2⟩,
    c.1.map (·.expiresAt)⟩, c.2)

def isInCooldown (s : MemoryStore) (provider model : String) (now : Nat) :
    Bool × MemoryStore :=
  let c := s.getCooldown provider model now
  (c.1.isSome, c.2)

def getCooldownUntil (s : MemoryStore) (provider model : String) (now : Nat) :
    Option Nat × MemoryStore :=
  let c := s.getCooldown provider model now
  (c.1.map (·.expiresAt), c.2)

def clearCooldown (s : MemoryStore) (provider model : String) : MemoryStore :=
  s.removeCooldown provider model

/-- `canMakeRequest`: cooldown, then request limits, then token limits
(the latter only when an estimate is present).  The source's early-return
loops over `ALL_WINDOWS` are `List.any`. -/
def canMakeRequest (s : MemoryStore) (provider model : String)
    (limits : RateLimits) (estimatedTokens now : Nat) : Bool × MemoryStore :=
  let cool := isInCooldown s provider model now
  if cool.1 then (false, cool.2)
  else
    let q := getQuotaStatus cool.2 provider model limits now
    if ALL_WINDOWS.any (fun w =>
        match q.1.requestsRemaining.get w with
        | some r => decide (r ≤ 0)
        | none => false) then (false, q.2)
    else if estimatedTokens > 0 && ALL_WINDOWS.any (fun w =>
        match q.1.tokensRemaining.get w with
        | some r => decide (r < estimatedTokens)
        | none => false) then (false, q.2)
    else (true, q.2)

/-- `markRateLimited`: `expiresAt = resetAt?.getTime() ?? Date.now() + defaultCooldownMs`. -/
def markRateLimited (s : MemoryStore) (provider model : String)
    (resetAt : Option Nat) (defaultCooldownMs now : Nat) : MemoryStore :=
  s.setCooldown ⟨provider, model, resetAt.getD (now + defaultCooldownMs)⟩

/-! ### Model registry (`src/models/aliases.ts`) -/

/-- JS `String.prototype.toLowerCase`, character-wise (every identifier
the registry lowercases is ASCII). -/
def toLowerStr (s : String) : String := ⟨s.data.map Char.toLower⟩

structure ModelDefinition where
  id : String
  qualityTier : Nat
  aliases : List String
  providers : List String
  family : String
  tags : List String
deriving DecidableEq, Repr

def MODEL_DEFINITIONS : List ModelDefinition := [
  ⟨"deepseek-r1", 5,
    ["deepseek-r1-0528", "deepseek-ai/deepseek-r1", "deepseek-r1-distill-llama-70b"],
    ["groq"], "deepseek", ["reasoning", "frontier"]⟩,
  ⟨"llama-3.1-405b", 4,
    ["llama-3.1-405b-instruct", "meta-llama/llama-3.1-405b",
     "meta-llama/llama-3.1-405b-instruct"],
    [], "llama", ["instruct", "xl"]⟩,
  ⟨"llama-3.3-70b", 3,
    ["llama-3.3-70b-versatile", "llama-3.3-70b-instruct", "llama-3.3-70b-specdec",
     "meta-llama/llama-3.3-70b", "meta-llama/llama-3.3-70b-instruct"],
    ["groq", "cerebras"], "llama", ["instruct", "versatile"]⟩,
  ⟨"llama-3.1-70b", 3,
    ["llama-3.1-70b-versatile", "llama-3.1-70b-instruct",
     "meta-llama/llama-3.1-70b", "meta-llama/llama-3.1-70b-instruct"],
    ["groq", "cerebras"], "llama", ["instruct"]⟩,
  ⟨"qwen-2.5-72b", 3,
    ["qwen-2.5-72b-instruct", "qwen/qwen-2.5-72b", "qwen/qwen-2.5-72b-instruct"],
    ["cerebras"], "qwen", ["instruct"]⟩,
  ⟨"qwen-2.5-32b", 2,
    ["qwen-2.5-32b-instruct", "qwen/qwen-2.5-32b", "qwen/qwen-2.5-32b-instruct",
     "qwen-qwq-32b"],
    ["groq", "cerebras"], "qwen", ["instruct"]⟩,
  ⟨"gemma-2-27b", 2,
    ["gemma-2-27b-it", "google/gemma-2-27b", "google/gemma-2-27b-it"],
    ["groq"], "gemma", ["instruct"]⟩,
  ⟨"mistral-small-24b", 2,
    ["mistral-small-24b-instruct", "mistralai/mistral-small-24b", "mistral-saba-24b"],
    ["groq"], "mistral", ["instruct"]⟩,
  ⟨"llama-3.2-3b", 1,
    ["llama-3.2-3b-preview", "llama-3.2-3b-instruct",
     "meta-llama/llama-3.2-3b", "meta-llama/llama-3.2-3b-instruct"],
    ["groq", "cerebras"], "llama", ["instruct", "small", "fast"]⟩,
  ⟨"llama-3.2-1b", 1,
    ["llama-3.2-1b-preview", "llama-3.2-1b-instruct",
     "meta-llama/llama-3.2-1b", "meta-llama/llama-3.2-1b-instruct"],
    ["groq", "cerebras"], "llama", ["instruct", "tiny", "fast"]⟩,
  ⟨"llama-3.1-8b", 1,
    ["llama-3.1-8b-instant", "llama-3.1-8b-instruct",
     "meta-llama/llama-3.1-8b", "meta-llama/llama-3.1-8b-instruct"],
    ["groq", "cerebras"], "llama", ["instruct", "fast"]⟩,
  ⟨"gemma-2-9b", 1,
    ["gemma-2-9b-it", "google/gemma-2-9b", "google/gemma-2-9b-it"],
    ["groq"], "gemma", ["instruct"]⟩]

structure GenericAliasConfig where
  tier : Option Nat := none
  tag : Option String := none
  minTier : Option Nat := none
deriving DecidableEq, Repr

def GENERIC_MODEL_ALIASES : List (String × GenericAliasConfig) := [
  ("best", { minTier := some 1 }),
  ("best-xl", { tier := some 4 }),
  ("best-large", { tier := some 3 }),
  ("best-medium", { tier := some 2 }),
  ("best-small", { tier := some 1 }),
  ("best-reasoning", { tag := some "reasoning" }),
  ("best-fast", { tag := some "fast" }),
  ("best-code", { tag := some "code" }),
  ("70b", { tier := some 3 }),
  ("32b", { tier := some 2 }),
  ("8b", { tier := some 1 })]

/-- `buildAliasMap`: canonical id and every alias, lowercased, map to the
canonical id (later `Map.set` wins). -/
def buildAliasMap : List (String × String) :=
  MODEL_DEFINITIONS.foldl
    (fun acc model =>
      let acc1 := listSet acc (toLowerStr model.id) model.id
      model.aliases.foldl (fun a al => listSet a (toLowerStr al) model.id) acc1)
    []

/-- `normalizeModelName`: lowercase lookup in the built-in alias map,
falling back to the input unchanged. -/
def normalizeModelName (modelName : String) : String :=
  (buildAliasMap.lookup (toLowerStr modelName)).getD modelName

def isGenericAlias (modelName : String) : Bool :=
  (GENERIC_MODEL_ALIASES.lookup (toLowerStr modelName)).isSome

def getGenericAliasConfig (modelName : String) : Option GenericAliasConfig :=
  GENERIC_MODEL_ALIASES.lookup (toLowerStr modelName)

/-! ### Provider model configuration (`src/types/provider.ts` area) -/

structure ModelConfig where
  id : String
  aliases : List String := []
  qualityTier : Nat
  limits : RateLimits
  tags : List String := []
deriving DecidableEq, Repr

structure ProviderDefinition where
  name : String
  models : List ModelConfig
  modelMapping : List (String × String) := []
deriving DecidableEq, Repr

/-- A provider as configured in the router (resolved config fields the
selection pipeline reads; the HTTP client is external). -/
structure ConfiguredProvider where
  definition : ProviderDefinition
  priority : Int
  isFreeCredits : Bool := false
deriving DecidableEq, Repr

/-- `providerSupportsModel`: key present in `modelMapping`, or any model
whose id or alias matches case-insensitively. -/
def providerSupportsModel (provider : ProviderDefinition) (modelId : String) : Bool :=
  let normalizedId := toLowerStr modelId
  if (provider.modelMapping.lookup normalizedId).isSome then true
  else provider.models.any (fun m =>
    toLowerStr m.id = normalizedId || m.aliases.any (fun a => toLowerStr a = normalizedId))

/-- The final loop of `getProviderModelId` over `provider.models`. -/
def modelIdFromConfigs : List ModelConfig → String → Option String
  | [], _ => none
  | m :: t, c =>
    if m.id = c then some m.id
    else if m.aliases.contains c then some m.id
    else modelIdFromConfigs t c

/-- `getProviderModelId`: direct mapping (JS truthiness, so an empty
string does not count), already-provider-specific id, then model configs. -/
def getProviderModelId (provider : ProviderDefinition) (canonicalModelId : String) :
    Option String :=
  let direct : Option String :=
    match provider.modelMapping.lookup canonicalModelId with
    | some v => if v = "" then none else some v
    | none => none
  match direct with
  | some v => some v
  | none =>
    if (provider.modelMapping.map Prod.snd).contains canonicalModelId then
      some canonicalModelId
    else modelIdFromConfigs provider.models canonicalModelId

/-! ### Provider selection (`src/routing/provider-selection.ts`) -/

/-- `resolveModelName`: user-supplied aliases first (exact-key lookup; an
empty-string value is falsy in JS and falls through), then the built-in
normalization. -/
def resolveModelName (model : String) (aliases : List (String × String)) : String :=
  match aliases.lookup model with
  | some v => if v = "" then normalizeModelName model else v
  | none => normalizeModelName model

def findProvidersForModel (modelId : String) (providers : List ConfiguredProvider) :
    List (ConfiguredProvider × ModelConfig) :=
  (providers.filter (fun cp => providerSupportsModel cp.definition modelId)).filterMap
    (fun cp =>
      match getProviderModelId cp.definition modelId with
      | none => none
      | some pid =>
        (cp.definition.models.find? (fun m => m.id = pid)).map (fun mc => (cp, mc)))

/-- `matchesAliasConfig`: exact tier, else minimum tier, else false. -/
def matchesAliasConfig (qualityTier : Nat) (cfg : GenericAliasConfig) : Bool :=
  match cfg.tier with
  | some t => decide (qualityTier = t)
  | none =>
    match cfg.minTier with
    | some t => decide (qualityTier ≥ t)
    | none => false

def findProvidersForGenericAlias (al : String) (providers : List ConfiguredProvider) :
    List (ConfiguredProvider × ModelConfig) :=
  match getGenericAliasConfig al with
  | none => []
  | some cfg =>
    providers.flatMap (fun cp =>
      (cp.definition.models.filter (fun mc => matchesAliasConfig mc.qualityTier cfg)).map
        (fun mc => (cp, mc)))

structure Candidate where
  provider : ProviderDefinition
  model : ModelConfig
  quota : QuotaStatus
  priority : Int
  latencyMs : Option ℚ := none
  isFreeCredits : Bool := false
deriving DecidableEq, Repr

/-- `buildCandidate`: skip excluded providers and pairs in cooldown, else
snapshot quota and latency.  (In the cooldown branch the source performs a
second cooldown read only for a debug log; the record was just seen
unexpired, so that read does not change the store.) -/
def buildCandidate (s : MemoryStore) (mt : ConfiguredProvider × ModelConfig)
    (excludedProviders : List String) (now : Nat) : Option Candidate × MemoryStore :=
  let definition := mt.1.definition
  if excludedProviders.contains definition.name then (none, s)
  else
    let cool := isInCooldown s definition.name mt.2.id now
    if cool.1 then (none, cool.2)
    else
      let q := getQuotaStatus cool.2 definition.name mt.2.id mt.2.limits now
      let latencyRecord := q.2.getLatency definition.name mt.2.id
      (some ⟨definition, mt.2, q.1, mt.1.priority,
        latencyRecord.map (·.averageMs), mt.1.isFreeCredits⟩, q.2)

/-- `buildCandidates` (`Promise.all` keeps the order of `matches`). -/
def buildCandidates (s : MemoryStore) (mts : List (ConfiguredProvider × ModelConfig))
    (excludedProviders : List String) (now : Nat) : List Candidate × MemoryStore :=
  match mts with
  | [] => ([], s)
  | mt :: t =>
    let r := buildCandidate s mt excludedProviders now
    let rest := buildCandidates r.2 t excludedProviders now
    (match r.1 with
     | some c => c :: rest.1
     | none => rest.1, rest.2)

/-- Ordering relation of `sortByQualityTier`'s comparator
`(a, b) => b.model.qualityTier - a.model.qualityTier`: `a` sorts at or
before `b` iff the comparator is `≤ 0`. -/
def tierOrder (a b : Candidate) : Prop := b.model.qualityTier ≤ a.model.qualityTier

instance : DecidableRel tierOrder := fun a b => by unfold tierOrder; infer_instance

/-- `sortByQualityTier`, modelling ECMAScript `Array.prototype.sort`
(stable) as a stable insertion sort. -/
def sortByQualityTier (candidates : List Candidate) : List Candidate :=
  List.insertionSort tierOrder candidates

inductive SelectionError where
  | no_candidates
  | all_providers_excluded
  | no_available_provider
deriving DecidableEq, Repr

inductive ProviderSelectionError where
  | no_matching_providers (model : String)
  | no_available_candidates (model : String)
  | strategy_error (e : SelectionError)
  | provider_not_found (providerName : String)
deriving DecidableEq, Repr

/-- `selectProvider` from `provider-selection.ts`, parameterized by the
routing strategy (which receives the tier-sorted candidates and the
excluded-provider set from the routing context). -/
def selectProviderM (s : MemoryStore) (model : String)
    (userAliases : List (String × String)) (providers : List ConfiguredProvider)
    (excludedProviders : List String)
    (strategy : List Candidate → List String → Except SelectionError Candidate)
    (now : Nat) :
    Except ProviderSelectionError (ConfiguredProvider × ModelConfig) × MemoryStore :=
  let resolvedModel := resolveModelName model userAliases
  let mts :=
    if isGenericAlias resolvedModel then
      findProvidersForGenericAlias resolvedModel providers
    else findProvidersForModel resolvedModel providers
  if mts.isEmpty then (.error (.no_matching_providers resolvedModel), s)
  else
    let bc := buildCandidates s mts excludedProviders now
    if bc.1.isEmpty then (.error (.no_available_candidates resolvedModel), bc.2)
    else
      let sorted := sortByQualityTier bc.1
      match strategy sorted excludedProviders with
      | .error e => (.error (.strategy_error e), bc.2)
      | .ok selected =>
        match providers.find? (fun p => p.definition.name = selected.provider.name) with
        | none => (.error (.provider_not_found selected.provider.name), bc.2)
        | some cp => (.ok (cp, selected.model), bc.2)

/-! ### Least-used strategy (`src/strategies/least-used.ts`) -/

def EPSILON : ℚ := 1 / 1000

/-- `calculatePercentage`: `remaining / limit` when both are present.
(ℚ division by zero is 0; the source would produce a non-finite float for
a configured limit of 0 — the theorems below stay with positive limits.) -/
def calculatePercentage (remaining : Option Nat) (limit : Option Nat) : Option ℚ :=
  match limit, remaining with
  | some L, some r => some ((r : ℚ) / (L : ℚ))
  | _, _ => none

/-- `calculateAvailabilityScore`: minimum of the six per-pair ratios that
are defined; 1 when none is. -/
def calculateAvailabilityScore (quota : QuotaStatus) (limits : RateLimits) : ℚ :=
  let percentages := [
    calculatePercentage quota.requestsRemaining.minute limits.requestsPerMinute,
    calculatePercentage quota.requestsRemaining.hour limits.requestsPerHour,
    calculatePercentage quota.requestsRemaining.day limits.requestsPerDay,
    calculatePercentage quota.tokensRemaining.minute limits.tokensPerMinute,
    calculatePercentage quota.tokensRemaining.hour limits.tokensPerHour,
    calculatePercentage quota.tokensRemaining.day limits.tokensPerDay].filterMap id
  match percentages with
  | [] => 1
  | h :: t => t.foldl min h

/-- Ordering relation of the least-used comparator: score descending,
priority ascending when the scores are within `EPSILON`; `a` sorts at or
before `b` iff the comparator is `≤ 0`. -/
def scoreOrder (a b : Candidate × ℚ) : Prop :=
  if |b.2 - a.2| > EPSILON then b.2 ≤ a.2 else a.1.priority ≤ b.1.priority

instance : DecidableRel scoreOrder := fun a b => by unfold scoreOrder; infer_instance

/-- `selectByLeastUsed`, modelling the stable `Array.prototype.sort` as a
stable insertion sort over the `(candidate, score)` pairs. -/
def selectByLeastUsed (candidates : List Candidate)
    (excludedProviders : List String) : Except SelectionError Candidate :=
  let available := candidates.filter
    (fun c => !(excludedProviders.contains c.provider.name))
  match available with
  | [] =>
    .error (if candidates.isEmpty then .no_candidates else .all_providers_excluded)
  | firstCandidate :: _ =>
    let bestTier := firstCandidate.model.qualityTier
    let sameTierCandidates := available.filter
      (fun c => c.model.qualityTier = bestTier)
    let withScores := sameTierCandidates.map
      (fun c => (c, calculateAvailabilityScore c.quota c.model.limits))
    let sorted := List.insertionSort scoreOrder withScores
    match sorted with
    | [] => .error .no_available_provider
    | sel :: _ => .ok sel.1

/-! ### Token estimation (`src/rate-limit/tokens.ts`) -/

/-- `estimateTokens`: `Math.ceil(text.length / 4)` with an early 0 for the
empty string. -/
def estimateTokens (text : String) : Nat :=
  if text = "" then 0 else (text.length + 3) / 4

def estimateMessageTokens (content : String) : Nat :=
  estimateTokens content + 4

def estimateChatTokens (messages : List String) : Nat :=
  messages.foldl (fun sum msg => sum + estimateMessageTokens msg) 0 + 3

/-! ### Execution driver (`src/routing/executor.ts` / `router.ts`) -/

structure RetryConfig where
  maxRetries : Nat
  initialBackoffMs : Nat
  maxBackoffMs : Nat
  backoffMultiplier : Nat
deriving DecidableEq, Repr

/-- Behaviour of one upstream invocation, as observed by the driver. -/
inductive AttemptOutcome where
  | success (tokensUsed : Nat)
  | rateLimited (resetAt : Option Nat)
  | otherError
deriving DecidableEq, Repr

inductive ExecResult where
  | completed (providerName modelId : String) (retryCount : Nat)
  | exhausted (attempted : List String) (earliestReset : Option Nat)
  | fuelOut
deriving DecidableEq, Repr

structure ExecOutcome where
  result : ExecResult
  store : MemoryStore
  upstreamCalls : Nat
  prunes : Nat
  finalRetryCount : Nat
  finalExcluded : List String
deriving DecidableEq, Repr

/-- The inner loop of `findEarliestReset`: the first model of the provider
that has an active cooldown. -/
def firstCooldownForProvider (s : MemoryStore) (providerName : String)
    (models : List ModelConfig) (now : Nat) : Option Nat × MemoryStore :=
  match models with
  | [] => (none, s)
  | mc :: t =>
    let c := getCooldownUntil s providerName mc.id now
    match c.1 with
    | some d => (some d, c.2)
    | none => firstCooldownForProvider c.2 providerName t now

def collectFirstCooldowns (providers : List ConfiguredProvider) (s : MemoryStore)
    (now : Nat) : List (Option Nat) × MemoryStore :=
  match providers with
  | [] => ([], s)
  | cp :: t =>
    let r := firstCooldownForProvider s cp.definition.name cp.definition.models now
    let rest := collectFirstCooldowns t r.2 now
    (r.1 :: rest.1, rest.2)

/-- `findEarliestReset`: per provider, the first model with a cooldown;
then the minimum of the collected times. -/
def findEarliestReset (providers : List ConfiguredProvider) (s : MemoryStore)
    (now : Nat) : Option Nat × MemoryStore :=
  let c := collectFirstCooldowns providers s now
  ((c.1.filterMap id).min?, c.2)

/-- JS `Set.add` followed by insertion-order iteration. -/
def addExcluded (l : List String) (n : String) : List String :=
  if l.contains n then l else l ++ [n]

structure ExecEnv where
  retry : RetryConfig
  providers : List ConfiguredProvider
  userAliases : List (String × String)
  strategy : List Candidate → List String → Except SelectionError Candidate
  messages : List String
  model : String
  /-- Outcome of the k-th upstream invocation (0-based). -/
  upstream : Nat → AttemptOutcome
  /-- `Date.now()` during loop iteration i (constant within an iteration,
  so the latency recorded on success is 0 in this model). -/
  clock : Nat → Nat
  defaultCooldownMs : Nat

structure ExecState where
  store : MemoryStore
  excluded : List String
  retryCount : Nat
  upstreamCalls : Nat
  prunes : Nat
  iter : Nat

/-- Exit of the retry loop: gather cooldown info and report exhaustion
(`throwOnExhausted` path). -/
def execFinish (env : ExecEnv) (st : ExecState) : ExecOutcome :=
  let er := findEarliestReset env.providers st.store (env.clock st.iter)
  ⟨.exhausted st.excluded er.1, er.2, st.upstreamCalls, st.prunes,
    st.retryCount, st.excluded⟩

/-- The retry loop of `executeWithRetry` / `executeCompletion`.  Fuel only
bounds the recursion; `exec_terminates` shows it is never exhausted for
sufficient fuel.  Backoff sleeps have no state effect and are elided. -/
def execLoop (env : ExecEnv) : Nat → ExecState → ExecOutcome
  | 0, st => ⟨.fuelOut, st.store, st.upstreamCalls, st.prunes, st.retryCount, st.excluded⟩
  | fuel + 1, st =>
    if st.retryCount > env.retry.maxRetries then execFinish env st
    else
      let now := env.clock st.iter
      let sel := selectProviderM st.store env.model env.userAliases env.providers
        st.excluded env.strategy now
      match sel.1 with
      | .error _ => execFinish env { st with store := sel.2 }
      | .ok pm =>
        let providerName := pm.1.definition.name
        let estimatedTokens := estimateChatTokens env.messages
        let can := canMakeRequest sel.2 providerName pm.2.id pm.2.limits
          estimatedTokens now
        if !can.1 then
          execLoop env fuel { st with
            store := can.2,
            excluded := addExcluded st.excluded providerName,
            prunes := st.prunes + 1,
            iter := st.iter + 1 }
        else
          match env.upstream st.upstreamCalls with
          | .success tokensUsed =>
            let s1 := recordUsage can.2 providerName pm.2.id tokensUsed now
            let s2 := s1.updateLatency providerName pm.2.id 0 now
            ⟨.completed providerName pm.2.id st.retryCount, s2,
              st.upstreamCalls + 1, st.prunes, st.retryCount, st.excluded⟩
          | .rateLimited resetAt =>
            let s1 := markRateLimited can.2 providerName pm.2.id resetAt
              env.defaultCooldownMs now
            execLoop env fuel { st with
              store := s1,
              excluded := addExcluded st.excluded providerName,
              retryCount := st.retryCount + 1,
              upstreamCalls := st.upstreamCalls + 1,
              iter := st.iter + 1 }
          | .otherError =>
            execLoop env fuel { st with
              store := can.2,
              excluded := addExcluded st.excluded providerName,
              retryCount := st.retryCount + 1,
              upstreamCalls := st.upstreamCalls + 1,
              iter := st.iter + 1 }

def executeWithRetry (env : ExecEnv) (s0 : MemoryStore) (fuel : Nat) : ExecOutcome :=
  execLoop env fuel ⟨s0, [], 0, 0, 0, 0⟩

/-! ### Value-level views of the store reads

The store reads return `value × store` because reads prune expired
entries.  The following pure views return just the value; the lemmas
below show the threaded definitions compute these values, and that
pruning never changes the value of a later read (at the same clock). -/

def getUsageVal (s : MemoryStore) (key : String) (now : Nat) : Option UsageRecord :=
  match s.usage.lookup key with
  | none => none
  | some entry => if isExpired entry.expiresAt now then none else some entry.record

def getCooldownVal (s : MemoryStore) (provider model : String) (now : Nat) :
    Option CooldownRecord :=
  match s.cooldowns.lookup (makeKey provider model) with
  | none => none
  | some record => if now > record.expiresAt then none else some record

/-- The `(requests, tokens)` pair `getQuotaStatus` attributes to a window. -/
def usedFor (s : MemoryStore) (provider model : String) (w : TimeWindow)
    (now : Nat) : Nat × Nat :=
  match getUsageVal s (makeUsageKey provider model w) now with
  | none => (0, 0)
  | some u =>
    if u.windowStart ≠ getWindowStart w now then (0, 0)
    else (u.requests, u.tokens)

/-- The value computed by `getQuotaStatus`. -/
def quotaStatusVal (s : MemoryStore) (provider model : String)
    (limits : RateLimits) (now : Nat) : QuotaStatus :=
  let rm := remainingForWindow limits .minute (usedFor s provider model .minute now) now
  let rh := remainingForWindow limits .hour (usedFor s provider model .hour now) now
  let rd := remainingForWindow limits .day (usedFor s provider model .day now) now
  ⟨⟨rm.1, rh.1, rd.1⟩, ⟨rm.2.1, rh.2.1, rd.2.1⟩, ⟨rm.2.2, rh.2.2, rd.2.2⟩,
    (getCooldownVal s provider model now).map (·.expiresAt)⟩

/-- A sequence of `recordUsage` calls, each given as `(time, tokens)`. -/
def recordCalls (s : MemoryStore) (provider model : String)
    (calls : List (Nat × Nat)) : MemoryStore :=
  calls.foldl (fun st c => recordUsage st provider model c.2 c.1) s

/-! ### Spec-side availability score (for the refinement part of C5)

The spec describes the availability score as "for every metric×window
pair with a configured limit, `remaining / limit`; the score is the
minimum across all such ratios; 1 if no limits are configured".  The
following definitions follow those words; `specScore_eq` relates them to
`calculateAvailabilityScore` from the source. -/

/-- One spec-side ratio: present exactly when the limit is configured
(the remaining value is read off the quota snapshot). -/
def specRatio (limit : Option Nat) (remaining : Option Nat) : Option ℚ :=
  match limit with
  | none => none
  | some L => some (((remaining.getD 0 : Nat) : ℚ) / (L : ℚ))

/-- The availability score in the spec's words. -/
def specAvailabilityScore (quota : QuotaStatus) (limits : RateLimits) : ℚ :=
  let ratios := [
    specRatio limits.requestsPerMinute quota.requestsRemaining.minute,
    specRatio limits.requestsPerHour quota.requestsRemaining.hour,
    specRatio limits.requestsPerDay quota.requestsRemaining.day,
    specRatio limits.tokensPerMinute quota.tokensRemaining.minute,
    specRatio limits.tokensPerHour quota.tokensRemaining.hour,
    specRatio limits.tokensPerDay quota.tokensRemaining.day].filterMap id
  match ratios with
  | [] => 1
  | h :: t => t.foldl min h

/-- A quota snapshot carries a remaining value for every configured
limit (true of snapshots produced by `getQuotaStatus` with the same
limits record). -/
def quotaMatchesLimits (quota : QuotaStatus) (limits : RateLimits) : Prop :=
  (∀ w ∈ ALL_WINDOWS, (limits.requestsFor w).isSome = true →
    (quota.requestsRemaining.get w).isSome = true)
  ∧ (∀ w ∈ ALL_WINDOWS, (limits.tokensFor w).isSome = true →
    (quota.tokensRemaining.get w).isSome = true)

instance (quota : QuotaStatus) (limits : RateLimits) :
    Decidable (quotaMatchesLimits quota limits) := by
  unfold quotaMatchesLimits
  infer_instance

/-! ### Concrete candidates used by the C5 instances -/

/-- A quota snapshot with nothing tracked. -/
def emptyQuota : QuotaStatus := ⟨⟨none, none, none⟩, ⟨none, none, none⟩, ⟨none, none, none⟩, none⟩

/-- Tier-3 candidate, no limits configured (score 1), priority 1. -/
def candA : Candidate :=
  ⟨⟨"a", [], []⟩, ⟨"m", [], 3, ⟨none, none, none, none, none, none⟩, []⟩,
    emptyQuota, 1, none, false⟩

/-- Tier-3 candidate, 50 of 100 requests/minute remaining (score 1/2),
priority 0. -/
def candB : Candidate :=
  ⟨⟨"b", [], []⟩, ⟨"m", [], 3, ⟨some 100, none, none, none, none, none⟩, []⟩,
    ⟨⟨some 50, none, none⟩, ⟨none, none, none⟩, ⟨none, none, none⟩, none⟩,
    0, none, false⟩

/-- Tier-3 candidate, no limits configured (score 1), priority 2. -/
def candC : Candidate :=
  ⟨⟨"a", [], []⟩, ⟨"m", [], 3, ⟨none, none, none, none, none, none⟩, []⟩,
    emptyQuota, 2, none, false⟩

/-- Tier-3 candidate, 1999 of 2000 requests/minute remaining (score
1999/2000, within 0.001 of 1), priority 1. -/
def candD : Candidate :=
  ⟨⟨"b", [], []⟩, ⟨"m", [], 3, ⟨some 2000, none, none, none, none, none⟩, []⟩,
    ⟨⟨some 1999, none, none⟩, ⟨none, none, none⟩, ⟨none, none, none⟩, none⟩,
    1, none, false⟩

/-- Tier-3 candidate, 9981 of 10000 requests/minute remaining (score
0.9981), priority 0. -/
def candE : Candidate :=
  ⟨⟨"a", [], []⟩, ⟨"m", [], 3, ⟨some 10000, none, none, none, none, none⟩, []⟩,
    ⟨⟨some 9981, none, none⟩, ⟨none, none, none⟩, ⟨none, none, none⟩, none⟩,
    0, none, false⟩

/-- Tier-3 candidate, no limits configured (score 1), priority 2. -/
def candF : Candidate :=
  ⟨⟨"b", [], []⟩, ⟨"m", [], 3, ⟨none, none, none, none, none, none⟩, []⟩,
    emptyQuota, 2, none, false⟩

/-- Tier-3 candidate, 19981 of 20000 requests/minute remaining (score
0.99905, within 0.001 of both 0.9981 and 1), priority 1. -/
def candG : Candidate :=
  ⟨⟨"c", [], []⟩, ⟨"m", [], 3, ⟨some 20000, none, none, none, none, none⟩, []⟩,
    ⟨⟨some 19981, none, none⟩, ⟨none, none, none⟩, ⟨none, none, none⟩, none⟩,
    1, none, false⟩

/-! ### Spec-side views of the exhaustion path (C7)

`specEarliestReset` restates `findEarliestReset` without store threading:
per provider, the first model in its list with an active cooldown, then
the minimum.  `attemptedPairsEarliestReset` follows the claim's words
instead: the minimum cooldown over exactly the attempted pairs. -/

def specEarliestReset (providers : List ConfiguredProvider) (s : MemoryStore)
    (now : Nat) : Option Nat :=
  (providers.filterMap (fun cp =>
    cp.definition.models.findSome? (fun mc =>
      (getCooldownVal s cp.definition.name mc.id now).map (·.expiresAt)))).min?

/-- The earliest reset as the claim describes it: the minimum cooldown
`expiresAt` over the given (provider, model) pairs. -/
def attemptedPairsEarliestReset (pairs : List (String × String))
    (s : MemoryStore) (now : Nat) : Option Nat :=
  (pairs.filterMap (fun pm =>
    (getCooldownVal s pm.1 pm.2 now).map (·.expiresAt))).min?

/-! ### Concrete executor scenarios (C6, C7, C9 instances) -/

/-- One provider `a` exposing model `m` with a 30 req/min limit. -/
def provA : ConfiguredProvider :=
  ⟨⟨"a", [⟨"m", [], 3, ⟨some 30, none, none, none, none, none⟩, []⟩], []⟩, 0, false⟩

/-- The S4 scenario: only provider `a`, every upstream call answers 429
with no Retry-After, `maxRetries = 2`, clock pinned at 0. -/
def envC6 : ExecEnv :=
  ⟨⟨2, 1000, 30000, 2⟩, [provA], [], selectByLeastUsed, ["hi"], "m",
    fun _ => .rateLimited none, fun _ => 0, 60000⟩

def provB7 : ConfiguredProvider :=
  ⟨⟨"b", [⟨"m", [], 3, ⟨some 30, none, none, none, none, none⟩, []⟩], []⟩, 1, false⟩

/-- Provider `b` already cooling down until 300. -/
def storeC7 : MemoryStore := ⟨[], [("b:m", ⟨"b", "m", 300⟩)], []⟩

/-- Two providers; `b` is in cooldown, `a` fails with a non-429 error,
`maxRetries = 0`, clock pinned at 100. -/
def envC7 : ExecEnv :=
  ⟨⟨0, 1000, 30000, 2⟩, [provA, provB7], [], selectByLeastUsed, ["hi"], "m",
    fun _ => .otherError, fun _ => 100, 60000⟩

end Router

namespace Router

/-! ### Association-list and store-read lemmas -/

theorem lookup_listRemove_ne {α : Type} (l : List (String × α)) (k k' : String)
    (h : k' ≠ k) : (listRemove l k).lookup k' = l.lookup k' := by
  induction l with
  | nil => rfl
  | cons hd t ih =>
    obtain ⟨k0, v0⟩ := hd
    by_cases hk : k0 = k
    · subst hk
      have hb : (k' == k0) = false := beq_eq_false_iff_ne.mpr h
      simp [listRemove, List.lookup, hb]
    · by_cases hk' : k' = k0
      · subst hk'
        simp [listRemove, List.lookup, hk]
      · have hb : (k' == k0) = false := beq_eq_false_iff_ne.mpr hk'
        simp [listRemove, List.lookup, hk, hb, ih]

theorem lookup_listSet_self {α : Type} (l : List (String × α)) (k : String)
    (v : α) : (listSet l k v).lookup k = some v := by
  induction l with
  | nil => simp [listSet, List.lookup]
  | cons hd t ih =>
    obtain ⟨k0, v0⟩ := hd
    by_cases hk : k0 = k
    · simp [listSet, hk, List.lookup]
    · have hb : (k == k0) = false := beq_eq_false_iff_ne.mpr (Ne.symm hk)
      simp [listSet, hk, List.lookup, hb, ih]

theorem lookup_listSet_ne {α : Type} (l : List (String × α)) (k k' : String)
    (v : α) (h : k' ≠ k) : (listSet l k v).lookup k' = l.lookup k' := by
  induction l with
  | nil =>
    have hb : (k' == k) = false := beq_eq_false_iff_ne.mpr h
    simp [listSet, List.lookup, hb]
  | cons hd t ih =>
    obtain ⟨k0, v0⟩ := hd
    by_cases hk : k0 = k
    · subst hk
      have hb : (k' == k0) = false := beq_eq_false_iff_ne.mpr h
      simp [listSet, List.lookup, hb]
    · by_cases hk' : k' = k0
      · subst hk'
        simp [listSet, hk, List.lookup]
      · have hb : (k' == k0) = false := beq_eq_false_iff_ne.mpr hk'
        simp [listSet, hk, List.lookup, hb, ih]

theorem getUsage_fst (s : MemoryStore) (k : String) (now : Nat) :
    (s.getUsage k now).1 = getUsageVal s k now := by
  unfold MemoryStore.getUsage getUsageVal
  cases s.usage.lookup k with
  | none => rfl
  | some e =>
    by_cases h : isExpired e.expiresAt now <;> simp [h]

theorem getUsage_snd_cooldowns (s : MemoryStore) (k : String) (now : Nat) :
    (s.getUsage k now).2.cooldowns = s.cooldowns := by
  unfold MemoryStore.getUsage
  cases s.usage.lookup k with
  | none => rfl
  | some e =>
    by_cases h : isExpired e.expiresAt now <;> simp [h]

theorem getUsageVal_after_getUsage (s : MemoryStore) (k k' : String) (now : Nat)
    (h : k' ≠ k) :
    getUsageVal (s.getUsage k now).2 k' now = getUsageVal s k' now := by
  unfold MemoryStore.getUsage
  cases hl : s.usage.lookup k with
  | none => rfl
  | some e =>
    by_cases he : isExpired e.expiresAt now
    · simp only [he, if_true]
      unfold getUsageVal
      simp [lookup_listRemove_ne _ _ _ h]
    · simp [he]

theorem getCooldown_fst (s : MemoryStore) (p m : String) (now : Nat) :
    (s.getCooldown p m now).1 = getCooldownVal s p m now := by
  cases hl : List.lookup (makeKey p m) s.cooldowns with
  | none => simp [MemoryStore.getCooldown, getCooldownVal, hl]
  | some r =>
    by_cases h : now > r.expiresAt <;>
      simp [MemoryStore.getCooldown, getCooldownVal, hl, h]

theorem getCooldown_snd_usage (s : MemoryStore) (p m : String) (now : Nat) :
    (s.getCooldown p m now).2.usage = s.usage := by
  cases hl : List.lookup (makeKey p m) s.cooldowns with
  | none => simp [MemoryStore.getCooldown, hl]
  | some r =>
    by_cases h : now > r.expiresAt <;> simp [MemoryStore.getCooldown, hl, h]

theorem getUsageVal_congr {s s' : MemoryStore} (h : s.usage = s'.usage)
    (k : String) (now : Nat) : getUsageVal s k now = getUsageVal s' k now := by
  unfold getUsageVal
  rw [h]

theorem getCooldownVal_congr {s s' : MemoryStore} (h : s.cooldowns = s'.cooldowns)
    (p m : String) (now : Nat) :
    getCooldownVal s p m now = getCooldownVal s' p m now := by
  unfold getCooldownVal
  rw [h]

theorem usedFor_congr {s s' : MemoryStore} (p m : String) (w : TimeWindow)
    (now : Nat)
    (h : getUsageVal s (makeUsageKey p m w) now
       = getUsageVal s' (makeUsageKey p m w) now) :
    usedFor s p m w now = usedFor s' p m w now := by
  unfold usedFor
  rw [h]

/-- The three per-window usage keys are pairwise distinct. -/
theorem makeUsageKey_ne_of_window_ne (p m : String) {w w' : TimeWindow}
    (h : w ≠ w') : makeUsageKey p m w ≠ makeUsageKey p m w' := by
  intro heq
  have hd : (windowName w).data = (windowName w').data := by
    have := congrArg String.data heq
    simpa [makeUsageKey, String.data_append] using this
  have hn : windowName w = windowName w' := String.ext hd
  cases w <;> cases w' <;> simp_all [windowName]

theorem usageForWindow_fst (s : MemoryStore) (p m : String) (w : TimeWindow)
    (now : Nat) : (usageForWindow s p m w now).1 = usedFor s p m w now := by
  have hv := getUsage_fst s (makeUsageKey p m w) now
  cases hl : (s.getUsage (makeUsageKey p m w) now).1 with
  | none => simp [usageForWindow, usedFor, hl, hl ▸ hv.symm]
  | some u =>
    by_cases h : u.windowStart ≠ getWindowStart w now <;>
      simp [usageForWindow, usedFor, hl, hl ▸ hv.symm, h]

theorem usageForWindow_snd_usageVal (s : MemoryStore) (p m : String)
    (w : TimeWindow) (now : Nat) (k' : String) (h : k' ≠ makeUsageKey p m w) :
    getUsageVal (usageForWindow s p m w now).2 k' now = getUsageVal s k' now := by
  have hbase := getUsageVal_after_getUsage s (makeUsageKey p m w) k' now h
  cases hl : (s.getUsage (makeUsageKey p m w) now).1 with
  | none => simpa [usageForWindow, hl] using hbase
  | some u =>
    by_cases hw : u.windowStart ≠ getWindowStart w now <;>
      simpa [usageForWindow, hl, hw] using hbase

theorem usageForWindow_snd_cooldowns (s : MemoryStore) (p m : String)
    (w : TimeWindow) (now : Nat) :
    (usageForWindow s p m w now).2.cooldowns = s.cooldowns := by
  have hbase := getUsage_snd_cooldowns s (makeUsageKey p m w) now
  cases hl : (s.getUsage (makeUsageKey p m w) now).1 with
  | none => simpa [usageForWindow, hl] using hbase
  | some u =>
    by_cases hw : u.windowStart ≠ getWindowStart w now <;>
      simpa [usageForWindow, hl, hw] using hbase

theorem getQuotaStatus_fst (s : MemoryStore) (p m : String) (limits : RateLimits)
    (now : Nat) :
    (getQuotaStatus s p m limits now).1 = quotaStatusVal s p m limits now := by
  unfold getQuotaStatus quotaStatusVal
  have h1 := usageForWindow_fst s p m .minute now
  have key_hm : makeUsageKey p m TimeWindow.hour ≠ makeUsageKey p m TimeWindow.minute :=
    makeUsageKey_ne_of_window_ne p m (by simp)
  have key_dm : makeUsageKey p m TimeWindow.day ≠ makeUsageKey p m TimeWindow.minute :=
    makeUsageKey_ne_of_window_ne p m (by simp)
  have key_dh : makeUsageKey p m TimeWindow.day ≠ makeUsageKey p m TimeWindow.hour :=
    makeUsageKey_ne_of_window_ne p m (by simp)
  have h2 : (usageForWindow (usageForWindow s p m .minute now).2 p m .hour now).1
      = usedFor s p m .hour now := by
    rw [usageForWindow_fst]
    exact usedFor_congr p m .hour now
      (usageForWindow_snd_usageVal s p m .minute now _ key_hm)
  have h3 : (usageForWindow (usageForWindow (usageForWindow s p m .minute now).2
      p m .hour now).2 p m .day now).1 = usedFor s p m .day now := by
    rw [usageForWindow_fst]
    refine usedFor_congr p m .day now ?_
    rw [usageForWindow_snd_usageVal _ p m .hour now _ key_dh]
    exact usageForWindow_snd_usageVal s p m .minute now _ key_dm
  have hc : ((usageForWindow (usageForWindow (usageForWindow s p m .minute now).2
      p m .hour now).2 p m .day now).2.getCooldown p m now).1
      = getCooldownVal s p m now := by
    rw [getCooldown_fst]
    refine getCooldownVal_congr ?_ p m now
    rw [usageForWindow_snd_cooldowns, usageForWindow_snd_cooldowns,
      usageForWindow_snd_cooldowns]
  simp only [h1, h2, h3, hc]

theorem isInCooldown_fst (s : MemoryStore) (p m : String) (now : Nat) :
    (isInCooldown s p m now).1 = (getCooldownVal s p m now).isSome := by
  show (s.getCooldown p m now).1.isSome = _
  rw [getCooldown_fst]

theorem isInCooldown_snd_usage (s : MemoryStore) (p m : String) (now : Nat) :
    (isInCooldown s p m now).2.usage = s.usage := by
  unfold isInCooldown
  exact getCooldown_snd_usage s p m now

theorem quotaStatusVal_usage_congr {s s' : MemoryStore} (h : s.usage = s'.usage)
    (p m : String) (limits : RateLimits) (now : Nat) :
    (quotaStatusVal s p m limits now).requestsRemaining
      = (quotaStatusVal s' p m limits now).requestsRemaining
    ∧ (quotaStatusVal s p m limits now).tokensRemaining
      = (quotaStatusVal s' p m limits now).tokensRemaining := by
  have hu : ∀ w, usedFor s p m w now = usedFor s' p m w now := fun w =>
    usedFor_congr p m w now (getUsageVal_congr h _ now)
  unfold quotaStatusVal
  rw [hu .minute, hu .hour, hu .day]
  exact ⟨rfl, rfl⟩

/-! ### C1: `canMakeRequest` characterization -/

/-- **C1.** `canMakeRequest(p, m, limits, k)` returns `false` iff the pair
is in cooldown, or some window with a configured request limit has no
requests remaining, or `k > 0` and some window with a configured token
limit has fewer than `k` tokens remaining; otherwise it returns `true`. -/
theorem C1_canMakeRequest_false_iff (s : MemoryStore) (p m : String)
    (limits : RateLimits) (k now : Nat) :
    (canMakeRequest s p m limits k now).1 = false ↔
      ((isInCooldown s p m now).1 = true
        ∨ (∃ w ∈ ALL_WINDOWS, ∃ r,
            (quotaStatusVal s p m limits now).requestsRemaining.get w = some r ∧ r ≤ 0)
        ∨ (0 < k ∧ ∃ w ∈ ALL_WINDOWS, ∃ r,
            (quotaStatusVal s p m limits now).tokensRemaining.get w = some r ∧ r < k)) := by
  have hcool := isInCooldown_fst s p m now
  have husage := isInCooldown_snd_usage s p m now
  have hq := getQuotaStatus_fst (isInCooldown s p m now).2 p m limits now
  have hcongr := quotaStatusVal_usage_congr husage p m limits now
  simp only [canMakeRequest, hq, hcongr.1, hcongr.2, hcool]
  by_cases hc : (getCooldownVal s p m now).isSome = true
  · rw [if_pos hc]
    exact iff_of_true rfl (Or.inl hc)
  · rw [if_neg hc]
    by_cases hreq : (ALL_WINDOWS.any (fun w =>
        match (quotaStatusVal s p m limits now).requestsRemaining.get w with
        | some r => decide (r ≤ 0)
        | none => false)) = true
    · rw [if_pos hreq]
      refine iff_of_true rfl (Or.inr (Or.inl ?_))
      obtain ⟨w, hw, hpred⟩ := List.any_eq_true.mp hreq
      refine ⟨w, hw, ?_⟩
      cases hg : (quotaStatusVal s p m limits now).requestsRemaining.get w with
      | none => rw [hg] at hpred; simp at hpred
      | some r =>
        rw [hg] at hpred
        exact ⟨r, rfl, by simpa using hpred⟩
    · rw [if_neg hreq]
      by_cases htok : (decide (k > 0) && ALL_WINDOWS.any (fun w =>
          match (quotaStatusVal s p m limits now).tokensRemaining.get w with
          | some r => decide (r < k)
          | none => false)) = true
      · rw [if_pos htok]
        obtain ⟨hk, hany⟩ := Bool.and_eq_true_iff.mp htok
        refine iff_of_true rfl (Or.inr (Or.inr ⟨by simpa using hk, ?_⟩))
        obtain ⟨w, hw, hpred⟩ := List.any_eq_true.mp hany
        refine ⟨w, hw, ?_⟩
        cases hg : (quotaStatusVal s p m limits now).tokensRemaining.get w with
        | none => rw [hg] at hpred; simp at hpred
        | some r =>
          rw [hg] at hpred
          exact ⟨r, rfl, by simpa using hpred⟩
      · rw [if_neg htok]
        refine iff_of_false (by simp) ?_
        rintro (h | ⟨w, hw, r, hg, hr⟩ | ⟨hk, w, hw, r, hg, hr⟩)
        · exact hc h
        · exact hreq (List.any_eq_true.mpr ⟨w, hw, by rw [hg]; exact decide_eq_true hr⟩)
        · refine htok ?_
          rw [Bool.and_eq_true_iff]
          exact ⟨decide_eq_true hk,
            List.any_eq_true.mpr ⟨w, hw, by rw [hg]; exact decide_eq_true hr⟩⟩

end Router

namespace Router

/-! ### Usage-write lemmas (towards C2) -/

theorem getUsage_snd_lookup_ne (s : MemoryStore) (k k' : String) (now : Nat)
    (h : k' ≠ k) :
    (s.getUsage k now).2.usage.lookup k' = s.usage.lookup k' := by
  cases hl : List.lookup k s.usage with
  | none => simp [MemoryStore.getUsage, hl]
  | some e =>
    by_cases he : isExpired e.expiresAt now
    · simp [MemoryStore.getUsage, hl, he, lookup_listRemove_ne _ _ _ h]
    · simp [MemoryStore.getUsage, hl, he]

theorem getUsageVal_eq_of_lookup_eq {s s' : MemoryStore} (k : String) (now : Nat)
    (h : s.usage.lookup k = s'.usage.lookup k) :
    getUsageVal s k now = getUsageVal s' k now := by
  unfold getUsageVal
  rw [h]

theorem incrementUsage_lookup_self (s : MemoryStore) (k : String)
    (r t ws ttl now : Nat) :
    ((s.incrementUsage k r t ws ttl now).2).usage.lookup k
      = some ⟨calculateUpdatedUsage (getUsageVal s k now) r t ws,
          if ttl = 0 then none else some (now + ttl)⟩ := by
  simp only [MemoryStore.incrementUsage, MemoryStore.setUsage]
  rw [lookup_listSet_self, getUsage_fst]

theorem incrementUsage_lookup_ne (s : MemoryStore) (k k' : String)
    (r t ws ttl now : Nat) (h : k' ≠ k) :
    ((s.incrementUsage k r t ws ttl now).2).usage.lookup k'
      = s.usage.lookup k' := by
  unfold MemoryStore.incrementUsage MemoryStore.setUsage
  simp only []
  rw [lookup_listSet_ne _ _ _ _ h]
  exact getUsage_snd_lookup_ne s k k' now h

theorem calculateUpdatedUsage_windowStart (ex : Option UsageRecord)
    (r t ws : Nat) : (calculateUpdatedUsage ex r t ws).windowStart = ws := by
  unfold calculateUpdatedUsage
  cases ex with
  | none => rfl
  | some e =>
    by_cases h : e.windowStart ≠ ws
    · simp [h]
    · simp [h, not_not.mp h]

/-- Effect of one `recordUsage` call on the key of window `w`. -/
theorem recordUsage_lookup (s : MemoryStore) (p m : String) (tok now : Nat)
    (w : TimeWindow) :
    (recordUsage s p m tok now).usage.lookup (makeUsageKey p m w)
      = some ⟨calculateUpdatedUsage (getUsageVal s (makeUsageKey p m w) now)
            1 tok (getWindowStart w now),
          some (now + WINDOW_DURATION_MS w)⟩ := by
  have hmh : makeUsageKey p m TimeWindow.minute ≠ makeUsageKey p m TimeWindow.hour :=
    makeUsageKey_ne_of_window_ne p m (by simp)
  have hmd : makeUsageKey p m TimeWindow.minute ≠ makeUsageKey p m TimeWindow.day :=
    makeUsageKey_ne_of_window_ne p m (by simp)
  have hhd : makeUsageKey p m TimeWindow.hour ≠ makeUsageKey p m TimeWindow.day :=
    makeUsageKey_ne_of_window_ne p m (by simp)
  have hhm := hmh.symm
  have hdm := hmd.symm
  have hdh := hhd.symm
  show ((((s.incrementUsage (makeUsageKey p m .minute) 1 tok
      (getWindowStart .minute now) (WINDOW_DURATION_MS .minute) now).2).incrementUsage
      (makeUsageKey p m .hour) 1 tok (getWindowStart .hour now)
      (WINDOW_DURATION_MS .hour) now).2.incrementUsage (makeUsageKey p m .day) 1 tok
      (getWindowStart .day now) (WINDOW_DURATION_MS .day) now).2.usage.lookup
      (makeUsageKey p m w) = _
  cases w with
  | minute =>
    rw [incrementUsage_lookup_ne _ _ _ _ _ _ _ _ hmd,
      incrementUsage_lookup_ne _ _ _ _ _ _ _ _ hmh,
      incrementUsage_lookup_self]
    simp [WINDOW_DURATION_MS]
  | hour =>
    rw [incrementUsage_lookup_ne _ _ _ _ _ _ _ _ hhd,
      incrementUsage_lookup_self]
    rw [getUsageVal_eq_of_lookup_eq (makeUsageKey p m .hour) now
      (incrementUsage_lookup_ne s _ _ 1 tok (getWindowStart .minute now)
        (WINDOW_DURATION_MS .minute) now hhm)]
    simp [WINDOW_DURATION_MS]
  | day =>
    rw [incrementUsage_lookup_self]
    rw [getUsageVal_eq_of_lookup_eq (makeUsageKey p m .day) now
      (incrementUsage_lookup_ne _ _ _ 1 tok (getWindowStart .hour now)
        (WINDOW_DURATION_MS .hour) now hdh)]
    rw [getUsageVal_eq_of_lookup_eq (makeUsageKey p m .day) now
      (incrementUsage_lookup_ne s _ _ 1 tok (getWindowStart .minute now)
        (WINDOW_DURATION_MS .minute) now hdm)]
    simp [WINDOW_DURATION_MS]

theorem getWindowStart_le (w : TimeWindow) (now : Nat) :
    getWindowStart w now ≤ now := by
  have hpos : 0 < WINDOW_DURATION_MS w := by cases w <;> decide
  calc now / WINDOW_DURATION_MS w * WINDOW_DURATION_MS w
      ≤ now := Nat.div_mul_le_self now _

theorem lt_getWindowStart_add (w : TimeWindow) (now : Nat) :
    now < getWindowStart w now + WINDOW_DURATION_MS w := by
  have hpos : 0 < WINDOW_DURATION_MS w := by cases w <;> decide
  exact Nat.lt_div_mul_add hpos

/-- Invariant step for a sequence of same-window `recordUsage` calls. -/
theorem recordCalls_aux (p m : String) (w : TimeWindow) (W : Nat) :
    ∀ (calls : List (Nat × Nat)) (s : MemoryStore) (n tot tlast : Nat),
      (∀ c ∈ calls, getWindowStart w c.1 = W) →
      W ≤ tlast →
      s.usage.lookup (makeUsageKey p m w)
        = some ⟨⟨n, tot, W⟩, some (tlast + WINDOW_DURATION_MS w)⟩ →
      ∃ tl, W ≤ tl ∧ (recordCalls s p m calls).usage.lookup (makeUsageKey p m w)
        = some ⟨⟨n + calls.length, tot + (calls.map Prod.snd).sum, W⟩,
            some (tl + WINDOW_DURATION_MS w)⟩ := by
  intro calls
  induction calls with
  | nil =>
    intro s n tot tlast _ hW hlook
    exact ⟨tlast, hW, by simpa using hlook⟩
  | cons c rest ih =>
    intro s n tot tlast hcal hW hlook
    obtain ⟨t, tok⟩ := c
    have hct : getWindowStart w t = W := hcal (t, tok) (by simp)
    have hWt : W ≤ t := hct ▸ getWindowStart_le w t
    have hnotexp : ¬ (tlast + WINDOW_DURATION_MS w < t) := by
      have h1 : t < W + WINDOW_DURATION_MS w := by
        have := lt_getWindowStart_add w t
        rwa [hct] at this
      have h2 : W + WINDOW_DURATION_MS w ≤ tlast + WINDOW_DURATION_MS w :=
        Nat.add_le_add_right hW _
      omega
    have hval : getUsageVal s (makeUsageKey p m w) t = some ⟨n, tot, W⟩ := by
      unfold getUsageVal
      rw [hlook]
      have hexp : isExpired (some (tlast + WINDOW_DURATION_MS w)) t = false := by
        simp only [isExpired, decide_eq_false_iff_not]
        omega
      simp [hexp]
    have hstep := recordUsage_lookup s p m tok t w
    rw [hval] at hstep
    have hupd : calculateUpdatedUsage (some ⟨n, tot, W⟩) 1 tok (getWindowStart w t)
        = ⟨n + 1, tot + tok, W⟩ := by
      rw [hct]
      simp [calculateUpdatedUsage]
    rw [hupd] at hstep
    have hrest : ∀ c' ∈ rest, getWindowStart w c'.1 = W := fun c' hc' =>
      hcal c' (by simp [hc'])
    obtain ⟨tl, htl, hfin⟩ := ih (recordUsage s p m tok t) (n + 1) (tot + tok) t
      hrest hWt hstep
    refine ⟨tl, htl, ?_⟩
    have : recordCalls s p m ((t, tok) :: rest)
        = recordCalls (recordUsage s p m tok t) p m rest := rfl
    rw [this, hfin]
    have h1 : n + 1 + rest.length = n + ((t, tok) :: rest).length := by
      simp only [List.length_cons]
      omega
    have h2 : tot + tok + (rest.map Prod.snd).sum
        = tot + (((t, tok) :: rest).map Prod.snd).sum := by
      simp only [List.map_cons, List.sum_cons]
      omega
    rw [h1, h2]

end Router

namespace Router

/-! ### C2: `recordUsage` writes and window counting -/

/-- **C2.** `recordUsage` writes all three windows, each with the aligned
window start for the current time and the matching TTL; and a sequence of
calls inside one aligned window `W`, starting from a state whose stored
record (if any) is from a different window, leaves a record counting
exactly the calls and the sum of their tokens (a stale record is
discarded and counting restarts). -/
theorem C2_recordUsage_windows_and_counts :
    (∀ (s : MemoryStore) (p m : String) (tok now : Nat), ∀ w ∈ ALL_WINDOWS,
      ∃ e : UsageEntry,
        (recordUsage s p m tok now).usage.lookup (makeUsageKey p m w) = some e
        ∧ e.record.windowStart = getWindowStart w now
        ∧ e.expiresAt = some (now + WINDOW_DURATION_MS w))
    ∧ (∀ (s : MemoryStore) (p m : String) (w : TimeWindow) (W : Nat)
        (calls : List (Nat × Nat)), calls ≠ [] →
        (∀ c ∈ calls, getWindowStart w c.1 = W) →
        (∀ e : UsageEntry, s.usage.lookup (makeUsageKey p m w) = some e →
          e.record.windowStart ≠ W) →
        ∃ e : UsageEntry,
          (recordCalls s p m calls).usage.lookup (makeUsageKey p m w) = some e
          ∧ e.record = ⟨calls.length, (calls.map Prod.snd).sum, W⟩) := by
  constructor
  · intro s p m tok now w _
    exact ⟨_, recordUsage_lookup s p m tok now w,
      calculateUpdatedUsage_windowStart _ _ _ _, rfl⟩
  · intro s p m w W calls hne hcal hstale
    cases calls with
    | nil => exact absurd rfl hne
    | cons c rest =>
      obtain ⟨t1, tok1⟩ := c
      have hct : getWindowStart w t1 = W := hcal (t1, tok1) (by simp)
      have hWt : W ≤ t1 := hct ▸ getWindowStart_le w t1
      have hreset : calculateUpdatedUsage
          (getUsageVal s (makeUsageKey p m w) t1) 1 tok1 (getWindowStart w t1)
          = ⟨1, tok1, W⟩ := by
        rw [hct]
        cases hg : getUsageVal s (makeUsageKey p m w) t1 with
        | none => rfl
        | some u =>
          have hne' : u.windowStart ≠ W := by
            unfold getUsageVal at hg
            cases hl : s.usage.lookup (makeUsageKey p m w) with
            | none => rw [hl] at hg; exact absurd hg (by simp)
            | some e =>
              rw [hl] at hg
              by_cases hx : isExpired e.expiresAt t1
              · simp [hx] at hg
              · simp [hx] at hg
                exact hg ▸ hstale e hl
          simp [calculateUpdatedUsage, hne']
      have hstep := recordUsage_lookup s p m tok1 t1 w
      rw [hreset] at hstep
      obtain ⟨tl, _, hfin⟩ := recordCalls_aux p m w W rest
        (recordUsage s p m tok1 t1) 1 tok1 t1
        (fun c' hc' => hcal c' (by simp [hc'])) hWt hstep
      refine ⟨_, hfin, ?_⟩
      simp only [List.length_cons, List.map_cons, List.sum_cons]
      congr 1
      omega

/-- C2 at a concrete input: two calls in the minute window starting at 0. -/
theorem C2_witness :
    (∃ e : UsageEntry,
      (recordUsage emptyStore "p" "m" 5 1000).usage.lookup
        (makeUsageKey "p" "m" .minute) = some e
      ∧ e.record.windowStart = getWindowStart .minute 1000
      ∧ e.expiresAt = some (1000 + WINDOW_DURATION_MS .minute))
    ∧ (∃ e : UsageEntry,
      (recordCalls emptyStore "p" "m" [(1000, 5), (2000, 7)]).usage.lookup
        (makeUsageKey "p" "m" .minute) = some e
      ∧ e.record = ⟨2, 12, 0⟩) := by
  constructor
  · exact C2_recordUsage_windows_and_counts.1 emptyStore "p" "m" 5 1000 .minute
      (by decide)
  · have h := C2_recordUsage_windows_and_counts.2 emptyStore "p" "m" .minute 0
      [(1000, 5), (2000, 7)] (by decide) (by decide)
      (fun e he => by simp [emptyStore] at he)
    simpa using h

/-! ### C3: boundary crossing reads zero usage -/

/-- **C3.** When the stored record for a window has a window start that
differs from the aligned start at the current time (or is absent),
`getQuotaStatus` reports full remaining quota for every configured limit
of that window, independent of the stale counts. -/
theorem C3_boundary_cross_reads_zero (s : MemoryStore) (p m : String)
    (limits : RateLimits) (w : TimeWindow) (now : Nat)
    (hstale : Option.all
      (fun u => decide (u.windowStart ≠ getWindowStart w now))
      (getUsageVal s (makeUsageKey p m w) now) = true) :
    (∀ lim, limits.requestsFor w = some lim →
      ((getQuotaStatus s p m limits now).1).requestsRemaining.get w = some lim)
    ∧ (∀ lim, limits.tokensFor w = some lim →
      ((getQuotaStatus s p m limits now).1).tokensRemaining.get w = some lim) := by
  have hzero : usedFor s p m w now = (0, 0) := by
    unfold usedFor
    cases hg : getUsageVal s (makeUsageKey p m w) now with
    | none => rfl
    | some u =>
      rw [hg] at hstale
      simp only [Option.all_some, decide_eq_true_eq] at hstale
      simp [hstale]
  constructor <;> intro lim hlim <;>
    simp only [getQuotaStatus_fst] <;>
    cases w <;>
      simp_all [quotaStatusVal, remainingForWindow, WindowValues.get,
        RateLimits.requestsFor, RateLimits.tokensFor]

/-- C3 at a concrete input: a minute record from window start 0 read at
time 60000 with limits 30 requests / 1000 tokens. -/
theorem C3_witness :
    ((getQuotaStatus ⟨[("p:m:minute", ⟨⟨5, 100, 0⟩, some 999999⟩)], [], []⟩
        "p" "m" { requestsPerMinute := some 30, tokensPerMinute := some 1000 }
        60000).1).requestsRemaining.get .minute = some 30
    ∧ ((getQuotaStatus ⟨[("p:m:minute", ⟨⟨5, 100, 0⟩, some 999999⟩)], [], []⟩
        "p" "m" { requestsPerMinute := some 30, tokensPerMinute := some 1000 }
        60000).1).tokensRemaining.get .minute = some 1000 := by
  have h := C3_boundary_cross_reads_zero
    ⟨[("p:m:minute", ⟨⟨5, 100, 0⟩, some 999999⟩)], [], []⟩ "p" "m"
    { requestsPerMinute := some 30, tokensPerMinute := some 1000 } .minute 60000
    (by decide)
  exact ⟨h.1 30 rfl, h.2 1000 rfl⟩

end Router

namespace Router

/-! ### C4: cooldown write and expiry semantics -/

theorem lookup_eq_none_of_not_mem {α : Type} (l : List (String × α)) (k : String)
    (h : k ∉ l.map Prod.fst) : l.lookup k = none := by
  induction l with
  | nil => rfl
  | cons hd t ih =>
    obtain ⟨k0, v0⟩ := hd
    simp only [List.map_cons, List.mem_cons, not_or] at h
    have hb : (k == k0) = false := beq_eq_false_iff_ne.mpr h.1
    simp [List.lookup, hb, ih h.2]

theorem lookup_listRemove_self {α : Type} (l : List (String × α)) (k : String)
    (hnd : (l.map Prod.fst).Nodup) : (listRemove l k).lookup k = none := by
  induction l with
  | nil => rfl
  | cons hd t ih =>
    obtain ⟨k0, v0⟩ := hd
    simp only [List.map_cons, List.nodup_cons] at hnd
    by_cases hk : k0 = k
    · subst hk
      simpa [listRemove] using lookup_eq_none_of_not_mem t k0 hnd.1
    · have hb : (k == k0) = false := beq_eq_false_iff_ne.mpr (fun h => hk h.symm)
      simp [listRemove, hk, List.lookup, hb, ih hnd.2]

/-- **C4 (amended).** `markRateLimited` writes a cooldown whose
`expiresAt` is `resetAt` when given and otherwise `now + defaultCooldown`;
and a cooldown record with `now` *strictly after* `expiresAt` behaves as
absent on every read: `isInCooldown` is false, `getCooldownUntil` is
`null`, and the record is pruned from the store by that read.  (At
`now = expiresAt` the record is still live: see the counterexample.) -/
theorem C4_markRateLimited_and_expiry :
    (∀ (s : MemoryStore) (p m : String) (resetAt : Option Nat) (dflt now : Nat),
      (markRateLimited s p m resetAt dflt now).cooldowns.lookup (makeKey p m)
        = some ⟨p, m, resetAt.getD (now + dflt)⟩)
    ∧ (∀ (s : MemoryStore) (p m : String) (now : Nat),
        (s.cooldowns.map Prod.fst).Nodup →
        (∀ c : CooldownRecord, s.cooldowns.lookup (makeKey p m) = some c →
          c.expiresAt < now) →
        (isInCooldown s p m now).1 = false
        ∧ (getCooldownUntil s p m now).1 = none
        ∧ ((s.getCooldown p m now).2).cooldowns.lookup (makeKey p m) = none) := by
  constructor
  · intro s p m resetAt dflt now
    unfold markRateLimited MemoryStore.setCooldown
    exact lookup_listSet_self _ _ _
  · intro s p m now hnd hexp
    cases hl : List.lookup (makeKey p m) s.cooldowns with
    | none =>
      refine ⟨?_, ?_, ?_⟩ <;>
        simp [isInCooldown, getCooldownUntil, MemoryStore.getCooldown, hl]
    | some c =>
      have hlt : c.expiresAt < now := hexp c hl
      refine ⟨?_, ?_, ?_⟩
      · simp [isInCooldown, MemoryStore.getCooldown, hl, hlt]
      · simp [getCooldownUntil, MemoryStore.getCooldown, hl, hlt]
      · simp only [MemoryStore.getCooldown, hl, if_pos hlt]
        exact lookup_listRemove_self _ _ hnd

/-- C4 amended, at a concrete input: a cooldown written at time 0 with no
reset time expires strictly after 60000. -/
theorem C4_witness :
    (markRateLimited emptyStore "p" "m" none DEFAULT_COOLDOWN_MS 0).cooldowns.lookup
        (makeKey "p" "m") = some ⟨"p", "m", 60000⟩
    ∧ ((isInCooldown (markRateLimited emptyStore "p" "m" none DEFAULT_COOLDOWN_MS 0)
        "p" "m" 60001).1 = false
      ∧ (getCooldownUntil (markRateLimited emptyStore "p" "m" none DEFAULT_COOLDOWN_MS 0)
        "p" "m" 60001).1 = none
      ∧ (((markRateLimited emptyStore "p" "m" none DEFAULT_COOLDOWN_MS 0).getCooldown
        "p" "m" 60001).2).cooldowns.lookup (makeKey "p" "m") = none) := by
  constructor
  · exact C4_markRateLimited_and_expiry.1 emptyStore "p" "m" none
      DEFAULT_COOLDOWN_MS 0
  · exact C4_markRateLimited_and_expiry.2
      (markRateLimited emptyStore "p" "m" none DEFAULT_COOLDOWN_MS 0) "p" "m" 60001
      (by decide) (by decide)

/-- **C4 counterexample.** The claim says a record with `now ≥ expiresAt`
is equivalent to absence; the store prunes only when `now > expiresAt`,
so at `now = expiresAt` (write at 0, default cooldown 60000, read at
60000) the pair is still reported in cooldown. -/
theorem C4_counterexample :
    (isInCooldown (markRateLimited emptyStore "p" "m" none DEFAULT_COOLDOWN_MS 0)
      "p" "m" 60000).1 = true
    ∧ (getCooldownUntil (markRateLimited emptyStore "p" "m" none DEFAULT_COOLDOWN_MS 0)
      "p" "m" 60000).1 = some 60000 := by
  constructor <;> rfl

end Router

namespace Router

/-! ### C8: model-name resolution order and case sensitivity -/

/-- **C8 (amended).** Resolution consults the user alias table first with
an *exact* (case-sensitive) key lookup, then the built-in alias map with
a case-insensitive (lowercased) lookup; when neither maps the name, the
input is returned unchanged. -/
theorem C8_resolveModelName_order :
    (∀ (m v : String) (aliases : List (String × String)),
      aliases.lookup m = some v → v ≠ "" → resolveModelName m aliases = v)
    ∧ (∀ (m : String) (aliases : List (String × String)),
      aliases.lookup m = none →
        ∀ cid, buildAliasMap.lookup (toLowerStr m) = some cid →
          resolveModelName m aliases = cid)
    ∧ (∀ (m : String) (aliases : List (String × String)),
      aliases.lookup m = none →
        buildAliasMap.lookup (toLowerStr m) = none → resolveModelName m aliases = m) := by
  refine ⟨?_, ?_, ?_⟩
  · intro m v aliases hl hv
    simp [resolveModelName, hl, hv]
  · intro m aliases hl cid hb
    simp [resolveModelName, hl, normalizeModelName, hb]
  · intro m aliases hl hb
    simp [resolveModelName, hl, normalizeModelName, hb]

/-- C8 amended, at concrete inputs: an exact user-alias hit, a
case-insensitive built-in hit, and an unknown name returned unchanged. -/
theorem C8_witness :
    resolveModelName "fast" [("fast", "llama-3.1-8b")] = "llama-3.1-8b"
    ∧ resolveModelName "LLAMA-3.3-70B-Versatile" [] = "llama-3.3-70b"
    ∧ resolveModelName "zzz-unknown" [] = "zzz-unknown" :=
  ⟨C8_resolveModelName_order.1 "fast" "llama-3.1-8b" [("fast", "llama-3.1-8b")]
      rfl (by decide),
    C8_resolveModelName_order.2.1 "LLAMA-3.3-70B-Versatile" [] rfl "llama-3.3-70b"
      (by decide),
    C8_resolveModelName_order.2.2 "zzz-unknown" [] rfl (by decide)⟩

/-- **C8 counterexample.** The claim says user-table matching is
case-insensitive on the whole token.  The user table maps `MyModel`, the
query `mymodel` is equal to it up to case, yet resolution ignores the
user entry and returns the input unchanged. -/
theorem C8_counterexample :
    resolveModelName "mymodel" [("MyModel", "llama-3.3-70b")] = "mymodel"
    ∧ toLowerStr "mymodel" = toLowerStr "MyModel" := by
  constructor
  · rfl
  · rfl

/-! ### C10: tag-only generic aliases never match -/

theorem findProvidersForGenericAlias_tag_only (al : String)
    (cfg : GenericAliasConfig) (h : getGenericAliasConfig al = some cfg)
    (ht : cfg.tier = none) (hm : cfg.minTier = none)
    (providers : List ConfiguredProvider) :
    findProvidersForGenericAlias al providers = [] := by
  unfold findProvidersForGenericAlias
  rw [h]
  have hfalse : ∀ qt, matchesAliasConfig qt cfg = false := by
    intro qt
    unfold matchesAliasConfig
    rw [ht, hm]
  simp [hfalse]

/-- **C10.** `best-reasoning`, `best-fast` and `best-code` carry only a
tag; the generic-alias matcher rejects every model when neither `tier`
nor `minTier` is set, so each name is recognized as a generic alias yet
always produces an empty candidate set and a `no_matching_providers`
selection error, for every provider configuration. -/
theorem C10_tag_only_generic_aliases :
    ∀ name ∈ ["best-reasoning", "best-fast", "best-code"],
      isGenericAlias name = true
      ∧ (∃ cfg, getGenericAliasConfig name = some cfg ∧ cfg.tier = none
          ∧ cfg.minTier = none)
      ∧ (∀ providers : List ConfiguredProvider,
          findProvidersForGenericAlias name providers = [])
      ∧ (∀ (s : MemoryStore) (providers : List ConfiguredProvider)
          (excluded : List String)
          (strategy : List Candidate → List String → Except SelectionError Candidate)
          (now : Nat),
          (selectProviderM s name [] providers excluded strategy now).1
            = .error (.no_matching_providers name)) := by
  have main : ∀ name : String, ∀ cfg : GenericAliasConfig,
      getGenericAliasConfig name = some cfg → cfg.tier = none → cfg.minTier = none →
      isGenericAlias name = true → resolveModelName name [] = name →
      (isGenericAlias name = true
        ∧ (∃ c, getGenericAliasConfig name = some c ∧ c.tier = none
            ∧ c.minTier = none)
        ∧ (∀ providers : List ConfiguredProvider,
            findProvidersForGenericAlias name providers = [])
        ∧ (∀ (s : MemoryStore) (providers : List ConfiguredProvider)
            (excluded : List String)
            (strategy : List Candidate → List String → Except SelectionError Candidate)
            (now : Nat),
            (selectProviderM s name [] providers excluded strategy now).1
              = .error (.no_matching_providers name))) := by
    intro name cfg hcfg ht hm hgen hres
    have hff : ∀ providers : List ConfiguredProvider,
        findProvidersForGenericAlias name providers = [] :=
      findProvidersForGenericAlias_tag_only name cfg hcfg ht hm
    refine ⟨hgen, ⟨cfg, hcfg, ht, hm⟩, hff, ?_⟩
    intro s providers excluded strategy now
    simp [selectProviderM, hres, hgen, hff providers]
  intro name hname
  simp only [List.mem_cons, List.not_mem_nil, or_false] at hname
  rcases hname with h | h | h <;> subst h <;>
    exact main _ _ rfl rfl rfl rfl rfl

end Router

namespace Router

/-! ### C5: least-used strategy -/

theorem scoreOrder_refl (a : Candidate × ℚ) : scoreOrder a a := by
  unfold scoreOrder
  simp [EPSILON]

theorem scoreOrder_total (a b : Candidate × ℚ) : scoreOrder a b ∨ scoreOrder b a := by
  unfold scoreOrder
  rw [abs_sub_comm a.2 b.2]
  by_cases h : |b.2 - a.2| > EPSILON
  · rw [if_pos h, if_pos h]
    exact le_total b.2 a.2
  · rw [if_neg h, if_neg h]
    exact Int.le_total a.1.priority b.1.priority

theorem epsilon_pos : (0 : ℚ) < EPSILON := by
  unfold EPSILON
  norm_num

/-- Transitivity of the comparator order on a set whose score-ties are
transitive. -/
theorem scoreOrder_trans_of_tie_trans {S : List (Candidate × ℚ)}
    (htie : ∀ p ∈ S, ∀ q ∈ S, ∀ r' ∈ S,
      |p.2 - q.2| ≤ EPSILON → |q.2 - r'.2| ≤ EPSILON → |p.2 - r'.2| ≤ EPSILON)
    {a b c : Candidate × ℚ} (ha : a ∈ S) (hb : b ∈ S) (hc : c ∈ S)
    (hab : scoreOrder a b) (hbc : scoreOrder b c) : scoreOrder a c := by
  have heps := epsilon_pos
  unfold scoreOrder at hab hbc ⊢
  by_cases c1 : |b.2 - a.2| > EPSILON
  · rw [if_pos c1] at hab
    have hba : b.2 < a.2 - EPSILON := by
      rcases lt_abs.mp c1 with h | h
      · linarith
      · linarith
    by_cases c2 : |c.2 - b.2| > EPSILON
    · rw [if_pos c2] at hbc
      have hcb : c.2 < b.2 - EPSILON := by
        rcases lt_abs.mp c2 with h | h
        · linarith
        · linarith
      have hca : EPSILON < |c.2 - a.2| := by
        rw [abs_sub_comm]
        exact lt_of_lt_of_le (by linarith : EPSILON < a.2 - c.2) (le_abs_self _)
      rw [if_pos hca]
      linarith
    · have htbc : |c.2 - b.2| ≤ EPSILON := not_lt.mp c2
      have hca : EPSILON < |c.2 - a.2| := by
        by_contra hta
        push_neg at hta
        have h2 : |b.2 - c.2| ≤ EPSILON := by rwa [abs_sub_comm] at htbc
        have h3 := htie b hb c hc a ha h2 hta
        exact absurd c1 (not_lt.mpr h3)
      rw [if_pos hca]
      rcases abs_le.mp htbc with ⟨hl, hr⟩
      linarith
  · have htab : |b.2 - a.2| ≤ EPSILON := not_lt.mp c1
    rw [if_neg c1] at hab
    by_cases c2 : |c.2 - b.2| > EPSILON
    · rw [if_pos c2] at hbc
      have hcb : c.2 < b.2 - EPSILON := by
        rcases lt_abs.mp c2 with h | h
        · linarith
        · linarith
      have hca : EPSILON < |c.2 - a.2| := by
        by_contra hta
        push_neg at hta
        have h3 : |a.2 - b.2| ≤ EPSILON := by rwa [abs_sub_comm] at htab
        have h4 := htie c hc a ha b hb hta h3
        exact absurd c2 (not_lt.mpr h4)
      rw [if_pos hca]
      rcases abs_le.mp htab with ⟨hl, hr⟩
      linarith
    · have htbc : |c.2 - b.2| ≤ EPSILON := not_lt.mp c2
      rw [if_neg c2] at hbc
      have htac : |c.2 - a.2| ≤ EPSILON := by
        have h2 : |a.2 - b.2| ≤ EPSILON := by rwa [abs_sub_comm] at htab
        have h3 : |b.2 - c.2| ≤ EPSILON := by rwa [abs_sub_comm] at htbc
        have h4 := htie a ha b hb c hc h2 h3
        rwa [abs_sub_comm] at h4
      rw [if_neg (not_lt.mpr htac)]
      exact le_trans hab hbc

/-- The head of an insertion sort is `≤` (in the given relation) every
element of the input, provided the relation is reflexive and total on it
and transitive on its elements. -/
theorem head_insertionSort_le {α : Type} (r : α → α → Prop) [DecidableRel r]
    (l : List α)
    (hrefl : ∀ a ∈ l, r a a)
    (htot : ∀ a ∈ l, ∀ b ∈ l, r a b ∨ r b a)
    (htr : ∀ a ∈ l, ∀ b ∈ l, ∀ c ∈ l, r a b → r b c → r a c) :
    ∀ z t, List.insertionSort r l = z :: t → z ∈ l ∧ ∀ x ∈ l, r z x := by
  induction l with
  | nil => intro z t h; cases h
  | cons x l' ih =>
    intro z t hsort
    have hperm' := List.perm_insertionSort r l'
    have hrefl' : ∀ a ∈ l', r a a := fun a ha => hrefl a (by simp [ha])
    have htot' : ∀ a ∈ l', ∀ b ∈ l', r a b ∨ r b a := fun a ha b hb =>
      htot a (by simp [ha]) b (by simp [hb])
    have htr' : ∀ a ∈ l', ∀ b ∈ l', ∀ c ∈ l', r a b → r b c → r a c :=
      fun a ha b hb c hc => htr a (by simp [ha]) b (by simp [hb]) c (by simp [hc])
    rw [List.insertionSort] at hsort
    cases hl' : List.insertionSort r l' with
    | nil =>
      rw [hl'] at hsort
      have hl'nil : l' = [] := List.Perm.eq_nil (hl' ▸ hperm').symm
      simp only [List.orderedInsert] at hsort
      obtain ⟨hz, ht⟩ := List.cons.inj hsort
      subst hz
      subst hl'nil
      exact ⟨by simp, by
        intro y hy
        simp only [List.mem_singleton] at hy
        subst hy
        exact hrefl y (by simp)⟩
    | cons h0 t0 =>
      obtain ⟨hh0mem, hh0all⟩ := ih hrefl' htot' htr' h0 t0 hl'
      rw [hl'] at hsort
      simp only [List.orderedInsert] at hsort
      by_cases hx : r x h0
      · rw [if_pos hx] at hsort
        obtain ⟨hz, _⟩ := List.cons.inj hsort
        subst hz
        refine ⟨by simp, ?_⟩
        intro y hy
        rcases List.mem_cons.mp hy with hy | hy
        · subst hy; exact hrefl y (by simp)
        · exact htr x (by simp) h0 (by simp [hh0mem]) y (by simp [hy]) hx
            (hh0all y hy)
      · rw [if_neg hx] at hsort
        obtain ⟨hz, _⟩ := List.cons.inj hsort
        subst hz
        have hxh0 : r h0 x := (htot x (by simp) h0 (by simp [hh0mem])).resolve_left hx
        refine ⟨by simp [hh0mem], ?_⟩
        intro y hy
        rcases List.mem_cons.mp hy with hy | hy
        · subst hy; exact hxh0
        · exact hh0all y hy

theorem calculatePercentage_eq_specRatio (lim rem : Option Nat)
    (h : lim.isSome = true → rem.isSome = true) :
    calculatePercentage rem lim = specRatio lim rem := by
  cases lim with
  | none => cases rem <;> rfl
  | some L =>
    cases rem with
    | none => exact absurd (h rfl) (by simp)
    | some r => rfl

/-- Refinement half of C5: for quota snapshots consistent with the
limits, the source score equals the spec's score. -/
theorem specScore_eq (quota : QuotaStatus) (limits : RateLimits)
    (h : quotaMatchesLimits quota limits) :
    calculateAvailabilityScore quota limits = specAvailabilityScore quota limits := by
  obtain ⟨hr, ht⟩ := h
  have e1 := calculatePercentage_eq_specRatio limits.requestsPerMinute
    quota.requestsRemaining.minute (hr .minute (by simp [ALL_WINDOWS]))
  have e2 := calculatePercentage_eq_specRatio limits.requestsPerHour
    quota.requestsRemaining.hour (hr .hour (by simp [ALL_WINDOWS]))
  have e3 := calculatePercentage_eq_specRatio limits.requestsPerDay
    quota.requestsRemaining.day (hr .day (by simp [ALL_WINDOWS]))
  have e4 := calculatePercentage_eq_specRatio limits.tokensPerMinute
    quota.tokensRemaining.minute (ht .minute (by simp [ALL_WINDOWS]))
  have e5 := calculatePercentage_eq_specRatio limits.tokensPerHour
    quota.tokensRemaining.hour (ht .hour (by simp [ALL_WINDOWS]))
  have e6 := calculatePercentage_eq_specRatio limits.tokensPerDay
    quota.tokensRemaining.day (ht .day (by simp [ALL_WINDOWS]))
  unfold calculateAvailabilityScore specAvailabilityScore
  rw [e1, e2, e3, e4, e5, e6]

end Router

namespace Router

/-- **C5 (amended).**  The least-used strategy restricts itself to the
highest-tier candidates among those not excluded, scores each by
`calculateAvailabilityScore` (equal, for quota snapshots consistent with
the limits, to the spec's minimum of remaining/limit over configured
pairs, 1 when none), and — provided score-ties within ±0.001 are
transitive among those candidates — returns a candidate whose score is at
least every other highest-tier candidate's score minus 0.001, and which
has the smallest priority among the candidates whose score ties with its
own.  (Without the tie-transitivity proviso no epsilon bound holds at
all, and the returned score need not be ≥ every other's even with it:
see the counterexample.) -/
theorem C5_leastUsed_selection :
    (∀ (quota : QuotaStatus) (limits : RateLimits), quotaMatchesLimits quota limits →
      calculateAvailabilityScore quota limits = specAvailabilityScore quota limits)
    ∧ (∀ (candidates : List Candidate) (excl : List String)
        (first : Candidate) (rest : List Candidate),
        candidates.Pairwise (fun a b => b.model.qualityTier ≤ a.model.qualityTier) →
        candidates.filter (fun c => !(excl.contains c.provider.name)) = first :: rest →
        (∀ a ∈ (first :: rest).filter
            (fun c => c.model.qualityTier = first.model.qualityTier),
          ∀ b ∈ (first :: rest).filter
            (fun c => c.model.qualityTier = first.model.qualityTier),
          ∀ c ∈ (first :: rest).filter
            (fun c => c.model.qualityTier = first.model.qualityTier),
          |calculateAvailabilityScore a.quota a.model.limits
            - calculateAvailabilityScore b.quota b.model.limits| ≤ EPSILON →
          |calculateAvailabilityScore b.quota b.model.limits
            - calculateAvailabilityScore c.quota c.model.limits| ≤ EPSILON →
          |calculateAvailabilityScore a.quota a.model.limits
            - calculateAvailabilityScore c.quota c.model.limits| ≤ EPSILON) →
        ∃ chosen, selectByLeastUsed candidates excl = .ok chosen
          ∧ chosen ∈ (first :: rest).filter
              (fun c => c.model.qualityTier = first.model.qualityTier)
          ∧ (∀ x ∈ first :: rest,
              x.model.qualityTier ≤ chosen.model.qualityTier)
          ∧ (∀ x ∈ (first :: rest).filter
              (fun c => c.model.qualityTier = first.model.qualityTier),
              calculateAvailabilityScore x.quota x.model.limits - EPSILON
                ≤ calculateAvailabilityScore chosen.quota chosen.model.limits)
          ∧ (∀ x ∈ (first :: rest).filter
              (fun c => c.model.qualityTier = first.model.qualityTier),
              |calculateAvailabilityScore chosen.quota chosen.model.limits
                - calculateAvailabilityScore x.quota x.model.limits| ≤ EPSILON →
              chosen.priority ≤ x.priority)) := by
  refine ⟨specScore_eq, ?_⟩
  intro candidates excl first rest hsorted hav htie
  have heps := epsilon_pos
  have hfpred : (fun c : Candidate =>
      decide (c.model.qualityTier = first.model.qualityTier)) first = true := by
    simp
  have hsame : (first :: rest).filter
      (fun c => c.model.qualityTier = first.model.qualityTier)
      = first :: rest.filter
        (fun c => c.model.qualityTier = first.model.qualityTier) :=
    List.filter_cons_of_pos hfpred
  have hws : ((first :: rest).filter
      (fun c => c.model.qualityTier = first.model.qualityTier)).map
      (fun c => (c, calculateAvailabilityScore c.quota c.model.limits)) ≠ [] := by
    rw [hsame]
    simp
  have htie2 : ∀ p ∈ ((first :: rest).filter
        (fun c => c.model.qualityTier = first.model.qualityTier)).map
        (fun c => (c, calculateAvailabilityScore c.quota c.model.limits)),
      ∀ q ∈ ((first :: rest).filter
        (fun c => c.model.qualityTier = first.model.qualityTier)).map
        (fun c => (c, calculateAvailabilityScore c.quota c.model.limits)),
      ∀ r' ∈ ((first :: rest).filter
        (fun c => c.model.qualityTier = first.model.qualityTier)).map
        (fun c => (c, calculateAvailabilityScore c.quota c.model.limits)),
      |p.2 - q.2| ≤ EPSILON → |q.2 - r'.2| ≤ EPSILON → |p.2 - r'.2| ≤ EPSILON := by
    intro p hp q hq r' hr'
    obtain ⟨cp, hcp, rfl⟩ := List.mem_map.mp hp
    obtain ⟨cq, hcq, rfl⟩ := List.mem_map.mp hq
    obtain ⟨cr, hcr, rfl⟩ := List.mem_map.mp hr'
    exact htie cp hcp cq hcq cr hcr
  have hsel : selectByLeastUsed candidates excl
      = (match List.insertionSort scoreOrder (((first :: rest).filter
          (fun c => c.model.qualityTier = first.model.qualityTier)).map
          (fun c => (c, calculateAvailabilityScore c.quota c.model.limits))) with
        | [] => Except.error SelectionError.no_available_provider
        | sel :: _ => Except.ok sel.1) := by
    unfold selectByLeastUsed
    rw [hav]
  cases hsort : List.insertionSort scoreOrder (((first :: rest).filter
      (fun c => c.model.qualityTier = first.model.qualityTier)).map
      (fun c => (c, calculateAvailabilityScore c.quota c.model.limits))) with
  | nil =>
    have hperm := List.perm_insertionSort scoreOrder (((first :: rest).filter
        (fun c => c.model.qualityTier = first.model.qualityTier)).map
        (fun c => (c, calculateAvailabilityScore c.quota c.model.limits)))
    rw [hsort] at hperm
    exact absurd (List.Perm.eq_nil hperm.symm) hws
  | cons z t =>
    obtain ⟨hzmem, hzall⟩ := head_insertionSort_le scoreOrder _
      (fun a _ => scoreOrder_refl a)
      (fun a _ b _ => scoreOrder_total a b)
      (fun a ha b hb c hc hab hbc =>
        scoreOrder_trans_of_tie_trans htie2 ha hb hc hab hbc)
      z t hsort
    obtain ⟨chosen, hchosen, hzeq⟩ := List.mem_map.mp hzmem
    refine ⟨chosen, ?_, hchosen, ?_, ?_, ?_⟩
    · rw [hsel, hsort, ← hzeq]
    · -- highest tier among the available candidates
      have hchtier : chosen.model.qualityTier = first.model.qualityTier := by
        have := List.of_mem_filter hchosen
        simpa using this
      have hpw : (first :: rest).Pairwise
          (fun a b => b.model.qualityTier ≤ a.model.qualityTier) := by
        rw [← hav]
        exact hsorted.sublist (List.filter_sublist candidates)
      intro x hx
      rcases List.mem_cons.mp hx with hx | hx
      · subst hx
        rw [hchtier]
      · rw [hchtier]
        exact (List.pairwise_cons.mp hpw).1 x hx
    · intro x hx
      have hxws : (x, calculateAvailabilityScore x.quota x.model.limits)
          ∈ ((first :: rest).filter
            (fun c => c.model.qualityTier = first.model.qualityTier)).map
            (fun c => (c, calculateAvailabilityScore c.quota c.model.limits)) :=
        List.mem_map.mpr ⟨x, hx, rfl⟩
      have hord := hzall _ hxws
      rw [← hzeq] at hord
      unfold scoreOrder at hord
      by_cases hcond : |(x, calculateAvailabilityScore x.quota x.model.limits).2
          - (chosen, calculateAvailabilityScore chosen.quota chosen.model.limits).2|
          > EPSILON
      · rw [if_pos hcond] at hord
        simp only at hord
        linarith
      · have h2 := not_lt.mp hcond
        simp only at h2
        rcases abs_le.mp h2 with ⟨hl, hr⟩
        linarith
    · intro x hx htiex
      have hxws : (x, calculateAvailabilityScore x.quota x.model.limits)
          ∈ ((first :: rest).filter
            (fun c => c.model.qualityTier = first.model.qualityTier)).map
            (fun c => (c, calculateAvailabilityScore c.quota c.model.limits)) :=
        List.mem_map.mpr ⟨x, hx, rfl⟩
      have hord := hzall _ hxws
      rw [← hzeq] at hord
      unfold scoreOrder at hord
      have hcond : ¬ (|(x, calculateAvailabilityScore x.quota x.model.limits).2
          - (chosen, calculateAvailabilityScore chosen.quota chosen.model.limits).2|
          > EPSILON) := by
        simp only
        rw [abs_sub_comm]
        exact not_lt.mpr htiex
      rw [if_neg hcond] at hord
      exact hord

end Router

namespace Router

/-- C5 amended, at a concrete input: the refinement at candB's snapshot,
and the selection over a one-candidate list. -/
theorem C5_witness :
    calculateAvailabilityScore candB.quota candB.model.limits
      = specAvailabilityScore candB.quota candB.model.limits
    ∧ ∃ chosen, selectByLeastUsed [candA] [] = Except.ok chosen
      ∧ chosen ∈ ([candA] : List Candidate).filter
          (fun c => c.model.qualityTier = candA.model.qualityTier)
      ∧ (∀ x ∈ ([candA] : List Candidate),
          x.model.qualityTier ≤ chosen.model.qualityTier)
      ∧ (∀ x ∈ ([candA] : List Candidate).filter
          (fun c => c.model.qualityTier = candA.model.qualityTier),
          calculateAvailabilityScore x.quota x.model.limits - EPSILON
            ≤ calculateAvailabilityScore chosen.quota chosen.model.limits) := by
  constructor
  · exact C5_leastUsed_selection.1 candB.quota candB.model.limits (by decide)
  · have hmem : ∀ x ∈ ([candA] : List Candidate).filter
        (fun c => c.model.qualityTier = candA.model.qualityTier), x = candA := by
      intro x hx
      simpa using (List.mem_filter.mp hx).1
    obtain ⟨chosen, h1, h2, h3, h4, h5⟩ :=
      C5_leastUsed_selection.2 [candA] [] candA []
        (by decide) (by decide)
        (by
          intro a ha b hb c hc h1 h2
          obtain rfl := hmem a ha
          obtain rfl := hmem c hc
          rw [sub_self, abs_zero]
          exact le_of_lt epsilon_pos)
    exact ⟨chosen, h1, h2, h3, h4⟩

/-- **C5 counterexample.**  Two failures of the claim's "score ≥ every
other highest-tier candidate's".  (1) With scores 1 (priority 2) and
1999/2000 (priority 1) the comparator treats the scores as tied and
selects the smaller priority, so the returned candidate's score is
strictly below the other's — the claim's own tie-break clause forces
exactly this choice.  (2) With same-tier scores 0.9981 (priority 0), 1
(priority 2) and 0.99905 (priority 1), in that input order, the
epsilon-tie relation is intransitive (0.9981 ties 0.99905 ties 1 but
0.9981 does not tie 1) and the sort returns the 0.9981 candidate, whose
score is below 1 − 0.001: without tie-transitivity not even an
epsilon-weakened bound holds. -/
theorem C5_counterexample :
    (selectByLeastUsed [candC, candD] [] = Except.ok candD
      ∧ calculateAvailabilityScore candD.quota candD.model.limits
        < calculateAvailabilityScore candC.quota candC.model.limits)
    ∧ (selectByLeastUsed [candE, candF, candG] [] = Except.ok candE
      ∧ calculateAvailabilityScore candE.quota candE.model.limits
        < calculateAvailabilityScore candF.quota candF.model.limits - EPSILON) := by
  have hs1 : calculateAvailabilityScore candC.quota candC.model.limits = 1 := rfl
  have hs2 : calculateAvailabilityScore candD.quota candD.model.limits
      = 1999 / 2000 := by
    have h0 : calculateAvailabilityScore candD.quota candD.model.limits
        = ((1999 : Nat) : ℚ) / ((2000 : Nat) : ℚ) := rfl
    rw [h0]
    norm_num
  have habs : |(1999 / 2000 : ℚ) - 1| ≤ EPSILON := by
    have : |(1999 / 2000 : ℚ) - 1| = 1 / 2000 := by
      rw [abs_sub_comm, abs_of_nonneg (by norm_num : (0:ℚ) ≤ 1 - 1999 / 2000)]
      norm_num
    rw [this]
    norm_num [EPSILON]
  have hcond : ¬ scoreOrder
      (candC, calculateAvailabilityScore candC.quota candC.model.limits)
      (candD, calculateAvailabilityScore candD.quota candD.model.limits) := by
    unfold scoreOrder
    simp only [hs1, hs2]
    rw [if_neg (not_lt.mpr habs)]
    decide
  have hbody : selectByLeastUsed [candC, candD] []
      = (match List.insertionSort scoreOrder
          [(candC, calculateAvailabilityScore candC.quota candC.model.limits),
           (candD, calculateAvailabilityScore candD.quota candD.model.limits)] with
        | [] => Except.error SelectionError.no_available_provider
        | sel :: _ => Except.ok sel.1) := rfl
  have hins : List.insertionSort scoreOrder
      [(candC, calculateAvailabilityScore candC.quota candC.model.limits),
       (candD, calculateAvailabilityScore candD.quota candD.model.limits)]
      = [(candD, calculateAvailabilityScore candD.quota candD.model.limits),
         (candC, calculateAvailabilityScore candC.quota candC.model.limits)] := by
    show List.orderedInsert scoreOrder _
      (List.orderedInsert scoreOrder _ (List.insertionSort scoreOrder [])) = _
    simp only [List.insertionSort, List.orderedInsert]
    rw [if_neg hcond]
  have hsE : calculateAvailabilityScore candE.quota candE.model.limits
      = 9981 / 10000 := by
    have h0 : calculateAvailabilityScore candE.quota candE.model.limits
        = ((9981 : Nat) : ℚ) / ((10000 : Nat) : ℚ) := rfl
    rw [h0]
    norm_num
  have hsF : calculateAvailabilityScore candF.quota candF.model.limits = 1 := rfl
  have hsG : calculateAvailabilityScore candG.quota candG.model.limits
      = 19981 / 20000 := by
    have h0 : calculateAvailabilityScore candG.quota candG.model.limits
        = ((19981 : Nat) : ℚ) / ((20000 : Nat) : ℚ) := rfl
    rw [h0]
    norm_num
  have habsGF : |(19981 / 20000 : ℚ) - 1| ≤ EPSILON := by
    have : |(19981 / 20000 : ℚ) - 1| = 19 / 20000 := by
      rw [abs_sub_comm, abs_of_nonneg (by norm_num : (0:ℚ) ≤ 1 - 19981 / 20000)]
      norm_num
    rw [this]
    norm_num [EPSILON]
  have habsEG : |(19981 / 20000 : ℚ) - 9981 / 10000| ≤ EPSILON := by
    have : |(19981 / 20000 : ℚ) - 9981 / 10000| = 19 / 20000 := by
      rw [abs_of_nonneg (by norm_num : (0:ℚ) ≤ 19981 / 20000 - 9981 / 10000)]
      norm_num
    rw [this]
    norm_num [EPSILON]
  have hordFG : ¬ scoreOrder
      (candF, calculateAvailabilityScore candF.quota candF.model.limits)
      (candG, calculateAvailabilityScore candG.quota candG.model.limits) := by
    unfold scoreOrder
    simp only [hsF, hsG]
    rw [if_neg (not_lt.mpr habsGF)]
    decide
  have hordEG : scoreOrder
      (candE, calculateAvailabilityScore candE.quota candE.model.limits)
      (candG, calculateAvailabilityScore candG.quota candG.model.limits) := by
    unfold scoreOrder
    simp only [hsE, hsG]
    rw [if_neg (not_lt.mpr habsEG)]
    decide
  have hbody2 : selectByLeastUsed [candE, candF, candG] []
      = (match List.insertionSort scoreOrder
          [(candE, calculateAvailabilityScore candE.quota candE.model.limits),
           (candF, calculateAvailabilityScore candF.quota candF.model.limits),
           (candG, calculateAvailabilityScore candG.quota candG.model.limits)] with
        | [] => Except.error SelectionError.no_available_provider
        | sel :: _ => Except.ok sel.1) := rfl
  have hins2 : List.insertionSort scoreOrder
      [(candE, calculateAvailabilityScore candE.quota candE.model.limits),
       (candF, calculateAvailabilityScore candF.quota candF.model.limits),
       (candG, calculateAvailabilityScore candG.quota candG.model.limits)]
      = [(candE, calculateAvailabilityScore candE.quota candE.model.limits),
         (candG, calculateAvailabilityScore candG.quota candG.model.limits),
         (candF, calculateAvailabilityScore candF.quota candF.model.limits)] := by
    show List.orderedInsert scoreOrder _
      (List.orderedInsert scoreOrder _
        (List.orderedInsert scoreOrder _ (List.insertionSort scoreOrder []))) = _
    simp only [List.insertionSort, List.orderedInsert]
    rw [if_neg hordFG]
    simp only [List.orderedInsert]
    rw [if_pos hordEG]
  refine ⟨⟨?_, ?_⟩, ⟨?_, ?_⟩⟩
  · rw [hbody, hins]
  · rw [hs1, hs2]
    norm_num
  · rw [hbody2, hins2]
  · rw [hsE, hsF]
    norm_num [EPSILON]

end Router

namespace Router

/-! ### Selection lemmas (towards C9) -/

theorem buildCandidate_some_not_excluded (s : MemoryStore)
    (mt : ConfiguredProvider × ModelConfig) (excl : List String) (now : Nat)
    (c : Candidate) (h : (buildCandidate s mt excl now).1 = some c) :
    excl.contains c.provider.name = false := by
  unfold buildCandidate at h
  by_cases hexcl : mt.1.definition.name ∈ excl
  · simp [hexcl] at h
  · by_cases hcool : (isInCooldown s mt.1.definition.name mt.2.id now).1
    · simp [hexcl, hcool] at h
    · simp [hexcl, hcool] at h
      have hprov : c.provider = mt.1.definition := by
        rw [← h]
      rw [hprov]
      simp [hexcl]

theorem mem_buildCandidates_not_excluded (mts : List (ConfiguredProvider × ModelConfig)) :
    ∀ (s : MemoryStore) (excl : List String) (now : Nat) (c : Candidate),
      c ∈ (buildCandidates s mts excl now).1 →
      excl.contains c.provider.name = false := by
  induction mts with
  | nil => intro s excl now c h; simp [buildCandidates] at h
  | cons mt t ih =>
    intro s excl now c h
    simp only [buildCandidates] at h
    cases hr : (buildCandidate s mt excl now).1 with
    | none =>
      rw [hr] at h
      exact ih _ excl now c h
    | some c0 =>
      rw [hr] at h
      rcases List.mem_cons.mp h with h | h
      · subst h
        exact buildCandidate_some_not_excluded s mt excl now c hr
      · exact ih _ excl now c h

theorem mem_of_sortByQualityTier {c : Candidate} {l : List Candidate}
    (h : c ∈ sortByQualityTier l) : c ∈ l :=
  (List.perm_insertionSort tierOrder l).mem_iff.mp h

/-- An `ok` result of `selectProvider` names a configured provider that
was not excluded (given a strategy returning one of its candidates). -/
theorem selectProviderM_ok_props (s : MemoryStore) (model : String)
    (ua : List (String × String)) (providers : List ConfiguredProvider)
    (excl : List String)
    (strat : List Candidate → List String → Except SelectionError Candidate)
    (now : Nat) (cp : ConfiguredProvider) (mc : ModelConfig)
    (hstrat : ∀ cands excl2 c, strat cands excl2 = .ok c → c ∈ cands)
    (h : (selectProviderM s model ua providers excl strat now).1 = .ok (cp, mc)) :
    cp ∈ providers ∧ excl.contains cp.definition.name = false := by
  simp only [selectProviderM] at h
  set resolvedModel := resolveModelName model ua with hres
  set mts := (if isGenericAlias resolvedModel then
      findProvidersForGenericAlias resolvedModel providers
    else findProvidersForModel resolvedModel providers) with hmts
  by_cases hempty : mts.isEmpty
  · rw [if_pos hempty] at h
    simp at h
  · rw [if_neg hempty] at h
    by_cases hbce : (buildCandidates s mts excl now).1.isEmpty
    · rw [if_pos hbce] at h
      simp at h
    · rw [if_neg hbce] at h
      cases hstratr : strat (sortByQualityTier (buildCandidates s mts excl now).1) excl with
      | error e =>
        rw [hstratr] at h
        have h' : (Except.error (ProviderSelectionError.strategy_error e) :
            Except ProviderSelectionError (ConfiguredProvider × ModelConfig))
            = Except.ok (cp, mc) := h
        simp at h'
      | ok selected =>
        rw [hstratr] at h
        have h2 : (match providers.find?
              (fun p : ConfiguredProvider =>
                p.definition.name = selected.provider.name) with
            | none => (Except.error (ProviderSelectionError.provider_not_found
                selected.provider.name), (buildCandidates s mts excl now).2)
            | some cp0 => (Except.ok (cp0, selected.model),
                (buildCandidates s mts excl now).2)).1 = Except.ok (cp, mc) := h
        cases hfind : providers.find?
            (fun p : ConfiguredProvider =>
              p.definition.name = selected.provider.name) with
        | none =>
          rw [hfind] at h2
          have h' : (Except.error
              (ProviderSelectionError.provider_not_found selected.provider.name) :
              Except ProviderSelectionError (ConfiguredProvider × ModelConfig))
              = Except.ok (cp, mc) := h2
          simp at h'
        | some cp' =>
          rw [hfind] at h2
          have h' : (Except.ok (cp', selected.model) :
              Except ProviderSelectionError (ConfiguredProvider × ModelConfig))
              = Except.ok (cp, mc) := h2
          have hcp : cp' = cp := by
            have := Except.ok.inj h'
            exact congrArg Prod.fst this
          subst hcp
          have hmem : cp' ∈ providers := List.mem_of_find?_eq_some hfind
          have hname : cp'.definition.name = selected.provider.name := by
            have := List.find?_some hfind
            simpa using this
          have hsel_mem := hstrat _ _ _ hstratr
          have hsel_in_bc := mem_of_sortByQualityTier hsel_mem
          have hnotex := mem_buildCandidates_not_excluded _ _ excl now _ hsel_in_bc
          rw [hname]
          exact ⟨hmem, hnotex⟩

/-- The least-used strategy returns one of its input candidates. -/
theorem selectByLeastUsed_mem (cands : List Candidate) (excl : List String)
    (c : Candidate) (h : selectByLeastUsed cands excl = .ok c) : c ∈ cands := by
  unfold selectByLeastUsed at h
  cases hav : cands.filter (fun c => !(excl.contains c.provider.name)) with
  | nil =>
    rw [hav] at h
    have h' : (Except.error (if cands.isEmpty then SelectionError.no_candidates
        else SelectionError.all_providers_excluded) :
        Except SelectionError Candidate) = Except.ok c := h
    simp at h'
  | cons firstCandidate rest =>
    rw [hav] at h
    have h2 : (match List.insertionSort scoreOrder
        (((firstCandidate :: rest).filter
          (fun c => c.model.qualityTier = firstCandidate.model.qualityTier)).map
          (fun c => (c, calculateAvailabilityScore c.quota c.model.limits))) with
      | [] => Except.error SelectionError.no_available_provider
      | sel :: _ => Except.ok sel.1) = Except.ok c := h
    cases hsort : List.insertionSort scoreOrder
        (((firstCandidate :: rest).filter
          (fun c => c.model.qualityTier = firstCandidate.model.qualityTier)).map
          (fun c => (c, calculateAvailabilityScore c.quota c.model.limits))) with
    | nil =>
      rw [hsort] at h2
      have h' : (Except.error SelectionError.no_available_provider :
          Except SelectionError Candidate) = Except.ok c := h2
      simp at h'
    | cons sel t =>
      rw [hsort] at h2
      have h' : (Except.ok sel.1 : Except SelectionError Candidate) = Except.ok c := h2
      have hc : sel.1 = c := Except.ok.inj h'
      subst hc
      have hmem : sel ∈ List.insertionSort scoreOrder
          (((firstCandidate :: rest).filter
            (fun c => c.model.qualityTier = firstCandidate.model.qualityTier)).map
            (fun c => (c, calculateAvailabilityScore c.quota c.model.limits))) := by
        rw [hsort]
        simp
      have hmem2 := (List.perm_insertionSort scoreOrder _).mem_iff.mp hmem
      obtain ⟨c0, hc0, hpair⟩ := List.mem_map.mp hmem2
      have hc0e : c0 = sel.1 := congrArg Prod.fst hpair
      subst hc0e
      have hin_avail : sel.1 ∈ (firstCandidate :: rest) := List.mem_of_mem_filter hc0
      have hin : sel.1 ∈ cands.filter (fun c => !(excl.contains c.provider.name)) := by
        rw [hav]
        exact hin_avail
      exact List.mem_of_mem_filter hin

end Router

namespace Router

/-! ### Executor loop lemmas (C9) -/

theorem addExcluded_nodup {l : List String} {n : String} (h : l.Nodup) :
    (addExcluded l n).Nodup := by
  unfold addExcluded
  by_cases hc : l.contains n = true
  · rw [if_pos hc]
    exact h
  · rw [if_neg hc]
    have hn : n ∉ l := by simpa using hc
    simp [List.nodup_append, h, hn]

theorem addExcluded_subset {l : List String} {n : String} {names : List String}
    (hl : ∀ x ∈ l, x ∈ names) (hn : n ∈ names) :
    ∀ x ∈ addExcluded l n, x ∈ names := by
  intro x hx
  unfold addExcluded at hx
  by_cases hc : l.contains n = true
  · rw [if_pos hc] at hx
    exact hl x hx
  · rw [if_neg hc] at hx
    rcases List.mem_append.mp hx with hx | hx
    · exact hl x hx
    · rw [List.mem_singleton.mp hx]
      exact hn

theorem addExcluded_length {l : List String} {n : String}
    (h : l.contains n = false) : (addExcluded l n).length = l.length + 1 := by
  unfold addExcluded
  rw [if_neg (by rw [h]; simp)]
  simp

/-- Termination and upstream-call bound for the retry loop: with enough
fuel the loop never runs out, and the number of upstream invocations made
from a state is at most the retry budget left plus one. -/
theorem execLoop_bound (env : ExecEnv)
    (hstrat : ∀ cands excl c, env.strategy cands excl = .ok c → c ∈ cands) :
    ∀ (fuel : Nat) (st : ExecState),
      st.excluded.Nodup →
      (∀ n ∈ st.excluded, n ∈ env.providers.map (fun p => p.definition.name)) →
      (env.retry.maxRetries + 1 - st.retryCount)
        + (env.providers.length - st.excluded.length) < fuel →
      (execLoop env fuel st).result ≠ ExecResult.fuelOut
      ∧ (execLoop env fuel st).upstreamCalls
          ≤ st.upstreamCalls + (env.retry.maxRetries + 1 - st.retryCount) := by
  intro fuel
  induction fuel with
  | zero =>
    intro st _ _ hlt
    omega
  | succ fuel ih =>
    intro st hnd hsub hlt
    simp only [execLoop]
    by_cases hguard : st.retryCount > env.retry.maxRetries
    · rw [if_pos hguard]
      refine ⟨by simp [execFinish], ?_⟩
      show st.upstreamCalls ≤ st.upstreamCalls + (env.retry.maxRetries + 1 - st.retryCount)
      omega
    · rw [if_neg hguard]
      have hretry : st.retryCount ≤ env.retry.maxRetries := not_lt.mp hguard
      cases hselr : (selectProviderM st.store env.model env.userAliases env.providers
          st.excluded env.strategy (env.clock st.iter)).1 with
      | error e =>
        refine ⟨by simp [execFinish], ?_⟩
        show st.upstreamCalls ≤ st.upstreamCalls + (env.retry.maxRetries + 1 - st.retryCount)
        omega
      | ok pm =>
        have hprops := selectProviderM_ok_props st.store env.model env.userAliases
          env.providers st.excluded env.strategy (env.clock st.iter) pm.1 pm.2
          hstrat hselr
        have hmemname : pm.1.definition.name
            ∈ env.providers.map (fun p => p.definition.name) :=
          List.mem_map_of_mem _ hprops.1
        have hfresh : st.excluded.contains pm.1.definition.name = false := hprops.2
        have hnotmem : pm.1.definition.name ∉ st.excluded := by simpa using hfresh
        have hlen : st.excluded.length + 1 ≤ env.providers.length := by
          have hnd' : (st.excluded ++ [pm.1.definition.name]).Nodup := by
            simp [List.nodup_append, hnd, hnotmem]
          have hsub' : st.excluded ++ [pm.1.definition.name]
              ⊆ env.providers.map (fun p => p.definition.name) := by
            intro x hx
            rcases List.mem_append.mp hx with hx | hx
            · exact hsub x hx
            · rw [List.mem_singleton.mp hx]
              exact hmemname
          have := (List.subperm_of_subset hnd' hsub').length_le
          simpa using this
        cases hcan : (canMakeRequest (selectProviderM st.store env.model
            env.userAliases env.providers st.excluded env.strategy
            (env.clock st.iter)).2 pm.1.definition.name pm.2.id pm.2.limits
            (estimateChatTokens env.messages) (env.clock st.iter)).1 with
        | false =>
          simp only [hcan, Bool.not_false, if_true]
          have hH := ih { st with
              store := (canMakeRequest (selectProviderM st.store env.model
                env.userAliases env.providers st.excluded env.strategy
                (env.clock st.iter)).2 pm.1.definition.name pm.2.id pm.2.limits
                (estimateChatTokens env.messages) (env.clock st.iter)).2,
              excluded := addExcluded st.excluded pm.1.definition.name,
              prunes := st.prunes + 1,
              iter := st.iter + 1 }
            (addExcluded_nodup hnd) (addExcluded_subset hsub hmemname)
            (by
              show (env.retry.maxRetries + 1 - st.retryCount)
                + (env.providers.length
                  - (addExcluded st.excluded pm.1.definition.name).length) < fuel
              rw [addExcluded_length hfresh]
              omega)
          refine ⟨hH.1, le_trans hH.2 ?_⟩
          show st.upstreamCalls + (env.retry.maxRetries + 1 - st.retryCount)
            ≤ st.upstreamCalls + (env.retry.maxRetries + 1 - st.retryCount)
          exact le_refl _
        | true =>
          simp only [hcan, Bool.not_true, Bool.false_eq_true, if_false]
          cases houtcome : env.upstream st.upstreamCalls with
          | success tokensUsed =>
            refine ⟨by simp, ?_⟩
            show st.upstreamCalls + 1
              ≤ st.upstreamCalls + (env.retry.maxRetries + 1 - st.retryCount)
            omega
          | rateLimited resetAt =>
            have hH := ih { st with
                store := markRateLimited (canMakeRequest (selectProviderM st.store
                  env.model env.userAliases env.providers st.excluded env.strategy
                  (env.clock st.iter)).2 pm.1.definition.name pm.2.id pm.2.limits
                  (estimateChatTokens env.messages) (env.clock st.iter)).2
                  pm.1.definition.name pm.2.id resetAt env.defaultCooldownMs
                  (env.clock st.iter),
                excluded := addExcluded st.excluded pm.1.definition.name,
                retryCount := st.retryCount + 1,
                upstreamCalls := st.upstreamCalls + 1,
                iter := st.iter + 1 }
              (addExcluded_nodup hnd) (addExcluded_subset hsub hmemname)
              (by
                show (env.retry.maxRetries + 1 - (st.retryCount + 1))
                  + (env.providers.length
                    - (addExcluded st.excluded pm.1.definition.name).length) < fuel
                rw [addExcluded_length hfresh]
                omega)
            refine ⟨hH.1, le_trans hH.2 ?_⟩
            show st.upstreamCalls + 1 + (env.retry.maxRetries + 1 - (st.retryCount + 1))
              ≤ st.upstreamCalls + (env.retry.maxRetries + 1 - st.retryCount)
            omega
          | otherError =>
            have hH := ih { st with
                store := (canMakeRequest (selectProviderM st.store env.model
                  env.userAliases env.providers st.excluded env.strategy
                  (env.clock st.iter)).2 pm.1.definition.name pm.2.id pm.2.limits
                  (estimateChatTokens env.messages) (env.clock st.iter)).2,
                excluded := addExcluded st.excluded pm.1.definition.name,
                retryCount := st.retryCount + 1,
                upstreamCalls := st.upstreamCalls + 1,
                iter := st.iter + 1 }
              (addExcluded_nodup hnd) (addExcluded_subset hsub hmemname)
              (by
                show (env.retry.maxRetries + 1 - (st.retryCount + 1))
                  + (env.providers.length
                    - (addExcluded st.excluded pm.1.definition.name).length) < fuel
                rw [addExcluded_length hfresh]
                omega)
            refine ⟨hH.1, le_trans hH.2 ?_⟩
            show st.upstreamCalls + 1 + (env.retry.maxRetries + 1 - (st.retryCount + 1))
              ≤ st.upstreamCalls + (env.retry.maxRetries + 1 - st.retryCount)
            omega

end Router

namespace Router

/-- **C9.** For every request the driver performs at most one upstream
invocation per loop iteration (one `env.upstream` call per `execLoop`
step, by construction), the total number of upstream invocations is at
most `maxRetries + 1`, and the loop terminates: with fuel
`maxRetries + #providers + 2` it never runs out, because every iteration
returns, increments the retry counter (bounded by `maxRetries`), adds a
new provider to the excluded set (bounded by the provider count), or
exits on a selection error. -/
theorem C9_executor_terminates_and_bounded (env : ExecEnv) (s0 : MemoryStore)
    (hstrat : ∀ cands excl c, env.strategy cands excl = .ok c → c ∈ cands) :
    (executeWithRetry env s0 (env.retry.maxRetries + env.providers.length + 2)).result
      ≠ ExecResult.fuelOut
    ∧ (executeWithRetry env s0
        (env.retry.maxRetries + env.providers.length + 2)).upstreamCalls
      ≤ env.retry.maxRetries + 1 := by
  have h := execLoop_bound env hstrat
    (env.retry.maxRetries + env.providers.length + 2)
    ⟨s0, [], 0, 0, 0, 0⟩ (by simp)
    (by intro n hn; exact absurd hn (List.not_mem_nil n))
    (by
      show (env.retry.maxRetries + 1 - 0) + (env.providers.length - 0)
        < env.retry.maxRetries + env.providers.length + 2
      omega)
  refine ⟨h.1, le_trans h.2 ?_⟩
  show 0 + (env.retry.maxRetries + 1 - 0) ≤ env.retry.maxRetries + 1
  omega

/-- C9 at a concrete input: the S4 scenario with the least-used strategy. -/
theorem C9_witness :
    (executeWithRetry envC6 emptyStore
      (envC6.retry.maxRetries + envC6.providers.length + 2)).result
      ≠ ExecResult.fuelOut
    ∧ (executeWithRetry envC6 emptyStore
      (envC6.retry.maxRetries + envC6.providers.length + 2)).upstreamCalls
      ≤ envC6.retry.maxRetries + 1 :=
  C9_executor_terminates_and_bounded envC6 emptyStore
    (fun cands excl c h => selectByLeastUsed_mem cands excl c h)

/-- **C6 (amended).** In the S4 scenario (single provider `a` always
answering 429 with no Retry-After, `maxRetries = 2`, clock at 0) the
driver makes exactly one upstream attempt; the 429 marks the cooldown and
adds `a` to the excluded set, so the next iteration fails *selection* —
there are no pre-flight prunes, only one retry slot is consumed, and the
run terminates with AllProvidersExhausted, attempted `[a]`, earliest
reset = mark time + default cooldown (60000). -/
theorem C6_single_provider_429 :
    (executeWithRetry envC6 emptyStore 5).result
      = ExecResult.exhausted ["a"] (some 60000)
    ∧ (executeWithRetry envC6 emptyStore 5).upstreamCalls = 1
    ∧ (executeWithRetry envC6 emptyStore 5).prunes = 0
    ∧ (executeWithRetry envC6 emptyStore 5).finalRetryCount = 1 := by
  refine ⟨?_, ?_, ?_, ?_⟩ <;> decide

/-- **C6 counterexample.**  The claim says the attempts after the first
are pre-flight-pruned by `can-make-request` and consume the remaining
retry slots.  In the S4 run no pre-flight prune ever happens, and with
`a` excluded the very next selection fails before any quota check. -/
theorem C6_counterexample :
    (executeWithRetry envC6 emptyStore 5).prunes = 0
    ∧ (selectProviderM (executeWithRetry envC6 emptyStore 5).store "m" []
        [provA] ["a"] selectByLeastUsed 0).1
      = Except.error (ProviderSelectionError.no_available_candidates "m") := by
  exact ⟨by decide, rfl⟩

end Router

namespace Router

/-! ### C7: earliest-reset characterization -/

theorem listRemove_sublist {α : Type} (l : List (String × α)) (k : String) :
    (listRemove l k).Sublist l := by
  induction l with
  | nil => simp [listRemove]
  | cons hd t ih =>
    obtain ⟨k0, v0⟩ := hd
    by_cases hk : k0 = k
    · simp only [listRemove, hk, if_pos rfl]
      exact (List.sublist_cons_self _ _)
    · simp only [listRemove, hk, if_neg hk]
      exact List.Sublist.cons₂ _ ih

theorem getCooldown_snd_nodup {s : MemoryStore} (p m : String) (now : Nat)
    (hnd : (s.cooldowns.map Prod.fst).Nodup) :
    ((s.getCooldown p m now).2.cooldowns.map Prod.fst).Nodup := by
  cases hl : List.lookup (makeKey p m) s.cooldowns with
  | none => simpa [MemoryStore.getCooldown, hl] using hnd
  | some r =>
    by_cases h : now > r.expiresAt
    · simp only [MemoryStore.getCooldown, hl, if_pos h]
      exact ((listRemove_sublist s.cooldowns (makeKey p m)).map Prod.fst).nodup hnd
    · simpa [MemoryStore.getCooldown, hl, h] using hnd

/-- Pruning performed by a cooldown read never changes the value any
other cooldown read (at the same clock) observes. -/
theorem getCooldownVal_stable {s : MemoryStore} (p m : String) (now : Nat)
    (hnd : (s.cooldowns.map Prod.fst).Nodup) (p' m' : String) :
    getCooldownVal (s.getCooldown p m now).2 p' m' now
      = getCooldownVal s p' m' now := by
  cases hl : List.lookup (makeKey p m) s.cooldowns with
  | none => simp [MemoryStore.getCooldown, hl]
  | some r =>
    by_cases h : now > r.expiresAt
    · simp only [MemoryStore.getCooldown, hl, if_pos h]
      by_cases hk : makeKey p' m' = makeKey p m
      · unfold getCooldownVal
        simp only [hk]
        rw [lookup_listRemove_self s.cooldowns (makeKey p m) hnd, hl]
        simp [h]
      · unfold getCooldownVal
        simp only []
        rw [lookup_listRemove_ne s.cooldowns (makeKey p m) (makeKey p' m') hk]
    · simp [MemoryStore.getCooldown, hl, h]

theorem getCooldownUntil_fst (s : MemoryStore) (p m : String) (now : Nat) :
    (getCooldownUntil s p m now).1
      = (getCooldownVal s p m now).map (·.expiresAt) := by
  show ((s.getCooldown p m now).1.map (·.expiresAt)) = _
  rw [getCooldown_fst]

theorem getCooldownUntil_snd (s : MemoryStore) (p m : String) (now : Nat) :
    (getCooldownUntil s p m now).2 = (s.getCooldown p m now).2 := rfl

theorem firstCooldownForProvider_spec (name : String) (now : Nat) :
    ∀ (models : List ModelConfig) (s : MemoryStore),
      (s.cooldowns.map Prod.fst).Nodup →
      (firstCooldownForProvider s name models now).1
        = models.findSome? (fun mc =>
            (getCooldownVal s name mc.id now).map (·.expiresAt))
      ∧ (∀ p' m', getCooldownVal (firstCooldownForProvider s name models now).2 p' m' now
          = getCooldownVal s p' m' now)
      ∧ (((firstCooldownForProvider s name models now).2.cooldowns.map Prod.fst).Nodup) := by
  intro models
  induction models with
  | nil =>
    intro s hnd
    exact ⟨rfl, fun _ _ => rfl, hnd⟩
  | cons mc t ih =>
    intro s hnd
    have hval := getCooldownUntil_fst s name mc.id now
    have hstable : ∀ p' m',
        getCooldownVal (getCooldownUntil s name mc.id now).2 p' m' now
          = getCooldownVal s p' m' now := by
      intro p' m'
      rw [getCooldownUntil_snd s name mc.id now]
      exact getCooldownVal_stable name mc.id now hnd p' m'
    have hnd2 : (((getCooldownUntil s name mc.id now).2).cooldowns.map Prod.fst).Nodup := by
      rw [getCooldownUntil_snd]
      exact getCooldown_snd_nodup name mc.id now hnd
    cases hv : (getCooldownUntil s name mc.id now).1 with
    | some d =>
      have hfs : List.findSome? (fun mc =>
          (getCooldownVal s name mc.id now).map (·.expiresAt)) (mc :: t) = some d := by
        rw [List.findSome?_cons]
        rw [← hval, hv]
      refine ⟨?_, ?_, ?_⟩
      · simp only [firstCooldownForProvider, hv, hfs]
      · intro p' m'
        simp only [firstCooldownForProvider, hv]
        exact hstable p' m'
      · simp only [firstCooldownForProvider, hv]
        exact hnd2
    | none =>
      obtain ⟨ih1, ih2, ih3⟩ := ih ((getCooldownUntil s name mc.id now).2) hnd2
      have hfnone : (getCooldownVal s name mc.id now).map (·.expiresAt) = none := by
        rw [← hval, hv]
      have hcong : (fun mc' : ModelConfig =>
          (getCooldownVal ((getCooldownUntil s name mc.id now).2) name mc'.id now).map
            (·.expiresAt))
          = (fun mc' : ModelConfig =>
          (getCooldownVal s name mc'.id now).map (·.expiresAt)) := by
        funext mc'
        rw [hstable name mc'.id]
      refine ⟨?_, ?_, ?_⟩
      · simp only [firstCooldownForProvider, hv]
        rw [ih1, hcong, List.findSome?_cons, hfnone]
      · intro p' m'
        simp only [firstCooldownForProvider, hv]
        rw [ih2 p' m']
        exact hstable p' m'
      · simp only [firstCooldownForProvider, hv]
        exact ih3

theorem collectFirstCooldowns_spec (now : Nat) :
    ∀ (providers : List ConfiguredProvider) (s : MemoryStore),
      (s.cooldowns.map Prod.fst).Nodup →
      (collectFirstCooldowns providers s now).1
        = providers.map (fun cp =>
            cp.definition.models.findSome? (fun mc =>
              (getCooldownVal s cp.definition.name mc.id now).map (·.expiresAt))) := by
  intro providers
  induction providers with
  | nil => intro s _; rfl
  | cons cp t ih =>
    intro s hnd
    obtain ⟨h1, h2, h3⟩ :=
      firstCooldownForProvider_spec cp.definition.name now cp.definition.models s hnd
    have hcong : (fun cp' : ConfiguredProvider =>
        cp'.definition.models.findSome? (fun mc =>
          (getCooldownVal (firstCooldownForProvider s cp.definition.name
            cp.definition.models now).2 cp'.definition.name mc.id now).map (·.expiresAt)))
        = (fun cp' : ConfiguredProvider =>
        cp'.definition.models.findSome? (fun mc =>
          (getCooldownVal s cp'.definition.name mc.id now).map (·.expiresAt))) := by
      funext cp'
      simp only [h2]
    simp only [collectFirstCooldowns]
    rw [ih _ h3, h1, List.map_cons, hcong]

/-- Every loop exit is fuel exhaustion, a completion, or an exhausted
error whose attempted list is the final excluded set. -/
theorem execLoop_result_shape (env : ExecEnv) :
    ∀ (fuel : Nat) (st : ExecState),
      (execLoop env fuel st).result = ExecResult.fuelOut
      ∨ (∃ p m r, (execLoop env fuel st).result = ExecResult.completed p m r)
      ∨ (∃ er, (execLoop env fuel st).result
          = ExecResult.exhausted (execLoop env fuel st).finalExcluded er) := by
  intro fuel
  induction fuel with
  | zero => intro st; exact Or.inl rfl
  | succ fuel ih =>
    intro st
    simp only [execLoop]
    by_cases hguard : st.retryCount > env.retry.maxRetries
    · rw [if_pos hguard]
      exact Or.inr (Or.inr ⟨_, rfl⟩)
    · rw [if_neg hguard]
      cases hselr : (selectProviderM st.store env.model env.userAliases env.providers
          st.excluded env.strategy (env.clock st.iter)).1 with
      | error e =>
        exact Or.inr (Or.inr ⟨_, rfl⟩)
      | ok pm =>
        cases hcan : (canMakeRequest (selectProviderM st.store env.model
            env.userAliases env.providers st.excluded env.strategy
            (env.clock st.iter)).2 pm.1.definition.name pm.2.id pm.2.limits
            (estimateChatTokens env.messages) (env.clock st.iter)).1 with
        | false =>
          simp only [hcan, Bool.not_false, if_true]
          exact ih _
        | true =>
          simp only [hcan, Bool.not_true, Bool.false_eq_true, if_false]
          cases houtcome : env.upstream st.upstreamCalls with
          | success tokensUsed => exact Or.inr (Or.inl ⟨_, _, _, rfl⟩)
          | rateLimited resetAt => exact ih _
          | otherError => exact ih _

/-- **C7 (amended).**  The earliest-reset carried by the terminal error
is computed from *all configured providers*, taking for each provider the
first model in its list with an active cooldown and then the minimum —
not the minimum over the attempted (provider, model) pairs; and the
terminal error's attempted list is the driver's final excluded set. -/
theorem C7_earliest_reset_characterization :
    (∀ (providers : List ConfiguredProvider) (s : MemoryStore) (now : Nat),
      (s.cooldowns.map Prod.fst).Nodup →
      (findEarliestReset providers s now).1 = specEarliestReset providers s now)
    ∧ (∀ (env : ExecEnv) (fuel : Nat) (st : ExecState) (att : List String)
        (er : Option Nat),
        (execLoop env fuel st).result = ExecResult.exhausted att er →
        att = (execLoop env fuel st).finalExcluded) := by
  constructor
  · intro providers s now hnd
    have hcol := collectFirstCooldowns_spec now providers s hnd
    show ((collectFirstCooldowns providers s now).1.filterMap id).min?
      = specEarliestReset providers s now
    rw [hcol, List.filterMap_map]
    rfl
  · intro env fuel st att er h
    rcases execLoop_result_shape env fuel st with hsh | ⟨p, m, r, hsh⟩ | ⟨er', hsh⟩
    · rw [h] at hsh; cases hsh
    · rw [h] at hsh; cases hsh
    · rw [h] at hsh
      exact ((ExecResult.exhausted.injEq _ _ _ _).mp hsh).1

end Router

namespace Router

/-- C7 amended, at concrete inputs: with providers `a` and `b` where only
`b` (never attempted) cools down until 300, the characterization yields
`some 300`, and the exhausted error's attempted list is the final
excluded set `[a]`. -/
theorem C7_witness :
    ((storeC7.cooldowns.map Prod.fst).Nodup
      ∧ (findEarliestReset [provA, provB7] storeC7 100).1 = some 300)
    ∧ ((executeWithRetry envC7 storeC7 5).result
        = ExecResult.exhausted ["a"] (some 300)
      ∧ ["a"] = (executeWithRetry envC7 storeC7 5).finalExcluded) := by
  refine ⟨⟨by decide, ?_⟩, ⟨by decide, ?_⟩⟩
  · rw [C7_earliest_reset_characterization.1 [provA, provB7] storeC7 100 (by decide)]
    decide
  · exact C7_earliest_reset_characterization.2 envC7 5 ⟨storeC7, [], 0, 0, 0, 0⟩
      ["a"] (some 300) (by decide)

/-- C7 as claimed is false: the run attempts only provider `a` (model
`m`), which has no cooldown, so the minimum over the attempted pairs is
`none`; yet the terminal error carries `some 300`, taken from the
never-attempted provider `b`. -/
theorem C7_counterexample :
    (executeWithRetry envC7 storeC7 5).result
      = ExecResult.exhausted ["a"] (some 300)
    ∧ attemptedPairsEarliestReset [("a", "m")]
        (executeWithRetry envC7 storeC7 5).store 100 = none := by
  constructor <;> decide

end Router

namespace Router

/-- C10 at a concrete input: `best-reasoning` is a generic alias with
neither tier bound, matches no provider, and selection fails with
`no_matching_providers`. -/
theorem C10_witness :
    isGenericAlias "best-reasoning" = true
    ∧ (∃ cfg, getGenericAliasConfig "best-reasoning" = some cfg ∧ cfg.tier = none
        ∧ cfg.minTier = none)
    ∧ findProvidersForGenericAlias "best-reasoning" [provA] = []
    ∧ (selectProviderM emptyStore "best-reasoning" [] [provA] []
        selectByLeastUsed 0).1
      = Except.error (ProviderSelectionError.no_matching_providers
          "best-reasoning") := by
  have h := C10_tag_only_generic_aliases "best-reasoning" (by decide)
  exact ⟨h.1, h.2.1, h.2.2.1 [provA],
    h.2.2.2 emptyStore [provA] [] selectByLeastUsed 0⟩

end Router
